import Mathlib

/-!
Verification development for the web-crypto-client repository.

The JavaScript sources are shallowly embedded:
JS strings become lists of UTF-16 code units (naturals), Uint8Array
buffers become lists of naturals below 256, promise results become
Except values carrying a JsError on rejection, and calls into external
collaborators (Web Crypto primitives, window.btoa and window.atob,
JSON.parse and JSON.stringify, the IndexedDB-backed key store) become
explicit function parameters whose documented contracts appear as
hypotheses.  Randomness (crypto.getRandomValues and symmetric key
generation) is passed in as explicit arguments.  Errors raised
synchronously and rejected promises are both modelled as Except.error;
the embedding does not distinguish the two delivery mechanisms.
-/

namespace WCC

/-- JavaScript strings are modelled as lists of UTF-16 code units. -/
abbrev JSStr := List Nat

/-- Byte buffers (Uint8Array contents) are lists of naturals below 256. -/
abbrev Bytes := List Nat

/-- Code units of a Lean string literal, for writing concrete JS strings. -/
def js (s : String) : JSStr := s.data.map Char.toNat

/-- All entries of a buffer are byte values. -/
def isBytes (b : Bytes) : Bool := b.all (fun x => x < 256)

/-- A JavaScript Error value, reduced to the fields the sources inspect:
the error name (compared against "OperationError" in decryptObject) and
its message. -/
structure JsError where
  name : String
  msg : String
deriving DecidableEq, Repr

/-- The code units that the toObject regular expression treats as line
terminators: the dot in a JavaScript regular expression matches any
character except newline, carriage return, U+2028 and U+2029. -/
def lineTerminators : List Nat := [10, 13, 8232, 8233]

namespace BufferTools

/-- Model of BufferTools.concat (part_003 lines 418-442): the buffers
are copied into one new buffer in argument order. -/
def concat (dataBuffers : List Bytes) : Bytes := dataBuffers.flatten

/-- Model of BufferTools.splitInTwo (part_003 lines 455-465):
subarray(0, splitPos) and subarray(splitPos).  The sources only call it
with a nonnegative in-range position, which Nat take and drop mirror
(both clamp at the length like subarray does). -/
def splitInTwo (dataBuffer12 : Bytes) (splitPos : Nat) : Bytes × Bytes :=
  (dataBuffer12.take splitPos, dataBuffer12.drop splitPos)

/-- Model of BufferTools.fromAscii (part_003 lines 475-486):
buf[i] = dataString.charCodeAt(i), where the Uint8Array store truncates
each code unit modulo 256. -/
def fromAscii (dataString : JSStr) : Bytes := dataString.map (fun u => u % 256)

/-- Model of BufferTools.toAscii (part_003 lines 496-503):
String.fromCharCode maps every byte to the code unit of the same value,
so on our representation the conversion is the identity. -/
def toAscii (dataBuffer : Bytes) : JSStr := dataBuffer

/-- The sixteen lowercase hexadecimal digit code units, in value order,
as in the digits tables of BufferTools.fromHex and BufferTools.toHex. -/
def hexDigits : List Nat := js "0123456789abcdef"

/-- Model of BufferTools.toHex (part_003 lines 542-556): every byte
becomes digits[b / 16] and digits[b % 16]. -/
def toHex (dataBuffer : Bytes) : JSStr :=
  dataBuffer.flatMap (fun b => [hexDigits.getD (b / 16) 0, hexDigits.getD (b % 16) 0])

/-- The toLowerCase step of BufferTools.fromHex, per code unit. -/
def lowerUnit (u : Nat) : Nat := if 65 ≤ u ∧ u ≤ 90 then u + 32 else u

/-- digits.indexOf of BufferTools.fromHex: the value of one lowercase
hexadecimal digit, none when the unit is not a digit. -/
def hexVal (u : Nat) : Option Nat := hexDigits.findIdx? (fun d => d = u)

/-- The digit-pair loop of BufferTools.fromHex: consumes two units at a
time, failing on any non-digit. -/
def fromHexPairs : JSStr → Option Bytes
  | [] => some []
  | [_] => none
  | c1 :: c2 :: rest =>
    match hexVal c1, hexVal c2, fromHexPairs rest with
    | some d1, some d2, some tail => some ((16 * d1 + d2) :: tail)
    | _, _, _ => none

/-- Model of BufferTools.fromHex (part_003 lines 513-532): rejects odd
length, lowercases, then decodes digit pairs; none models the thrown
FormatError. -/
def fromHex (dataString : JSStr) : Option Bytes :=
  if dataString.length % 2 ≠ 0 then none
  else fromHexPairs (dataString.map lowerUnit)

/-- The three reserved byte values of the noise framing: the opening
brace, the closing brace and zero (part_003 line 586). -/
def nonNoiseCharacters : List Nat := [123, 125, 0]

/-- The noise amounts of BufferTools.fromObject (part_003 lines
589-590): a random byte reduced modulo 50 plus 15. -/
def noiseAmount (r : Nat) : Nat := (r % 256) % 50 + 15

/-- The replacement byte of the noise framing (part_003 line 591): the
third random configuration byte itself, or the space character when
that byte is one of the reserved values. -/
def noiseFiller (r2 : Nat) : Nat :=
  if (r2 % 256) ∈ nonNoiseCharacters then 32 else r2 % 256

/-- The filtered random noise buffer of BufferTools.fromObject
(part_003 lines 593-599): random bytes with every reserved value
replaced by the filler. -/
def noiseBuf (r0 r1 r2 : Nat) (noise : Nat → Nat) : Bytes :=
  (List.range (noiseAmount r0 + noiseAmount r1)).map (fun i =>
    if (noise i % 256) ∈ nonNoiseCharacters then noiseFiller r2 else noise i % 256)

/-- The left part of the split noise buffer (part_003 line 601). -/
def noisePre (r0 r1 r2 : Nat) (noise : Nat → Nat) : Bytes :=
  (noiseBuf r0 r1 r2 noise).take (noiseAmount r0)

/-- The right part of the split noise buffer (part_003 line 601). -/
def noisePost (r0 r1 r2 : Nat) (noise : Nat → Nat) : Bytes :=
  (noiseBuf r0 r1 r2 noise).drop (noiseAmount r0)

/-- The noise-adding branch of BufferTools.fromObject (part_003 lines
580-603).  r0 r1 r2 are the three random configuration bytes and noise
is the random stream filling the noise buffer; getRandomValues delivers
bytes, hence the reductions modulo 256. -/
def addNoiseFraming (dataBuffer : Bytes) (r0 r1 r2 : Nat) (noise : Nat → Nat) : Bytes :=
  noisePre r0 r1 r2 noise ++ dataBuffer ++ noisePost r0 r1 r2 noise

/-- Model of BufferTools.fromObject (part_003 lines 573-606).  The
external JSON.stringify output for the object is passed in as jsonStr;
the body buffer is its fromAscii image, optionally noise-framed. -/
def fromObject (jsonStr : JSStr) (addNoise : Bool) (r0 r1 r2 : Nat) (noise : Nat → Nat) : Bytes :=
  let dataBuffer := fromAscii jsonStr
  if addNoise then addNoiseFraming dataBuffer r0 r1 r2 noise else dataBuffer

/-- The acceptance test of the group candidate found by extractRegion:
the group must be an opening brace, at least one character none of
which is a line terminator (the dot of the expression does not match
those), and a closing brace. -/
def extractCheck (u : Bytes) : Option Bytes :=
  if 3 ≤ u.length ∧ u.head? = some 123 ∧ u.getLast? = some 125 ∧
      (u.drop 1).dropLast.all (fun c => ¬ (c ∈ lineTerminators)) then
    some u
  else none

/-- The region match of BufferTools.toObject (part_003 line 627): the
regular expression anchored on both sides forces the group to run from
the first opening brace to the last closing brace of the string, which
dropping the brace-free outsides from both ends computes. -/
def extractRegion (s : Bytes) : Option Bytes :=
  extractCheck (((s.dropWhile (fun c => c ≠ 123)).reverse.dropWhile (fun c => c ≠ 125)).reverse)

/-- Model of BufferTools.toObject (part_003 lines 620-641): extract the
brace-delimited region and hand it to the external JSON.parse, here the
parameter parse.  Both the failed region match and a parse failure
surface as a thrown generic Error (name "Error"), because toObject wraps
the JSON.parse exception in a new Error. -/
def toObject {Obj : Type} (parse : Bytes → Except JsError Obj) (dataBuffer : Bytes) :
    Except JsError Obj :=
  match extractRegion dataBuffer with
  | none => .error ⟨"Error", "BufferTools.toObject(): Invalid arguments"⟩
  | some region =>
    match parse region with
    | .ok o => .ok o
    | .error _ => .error ⟨"Error", "BufferTools.toObject(): parse failure"⟩

end BufferTools

section BufferToolsLemmas

open BufferTools

theorem fromAscii_of_isBytes (s : JSStr) (h : isBytes s = true) : fromAscii s = s := by
  unfold fromAscii
  have hmap : s.map (fun u => u % 256) = s.map id := by
    apply List.map_congr_left
    intro a ha
    exact Nat.mod_eq_of_lt (by simpa using (List.all_eq_true.mp h a ha))
  rw [hmap, List.map_id]

theorem toHex_length (b : Bytes) : (toHex b).length = 2 * b.length := by
  induction b with
  | nil => rfl
  | cons x xs ih =>
    have hcons : toHex (x :: xs) =
        [hexDigits.getD (x / 16) 0, hexDigits.getD (x % 16) 0] ++ toHex xs := rfl
    rw [hcons, List.length_append, ih]
    simp only [List.length_cons, List.length_nil]
    omega

theorem hexVal_hexDig : ∀ d : Nat, d < 16 → hexVal (hexDigits.getD d 0) = some d := by
  decide

theorem lower_hexDig : ∀ d : Nat, d < 16 → lowerUnit (hexDigits.getD d 0) = hexDigits.getD d 0 := by
  decide

theorem hexDig_mem : ∀ d : Nat, d < 16 → hexDigits.getD d 0 ∈ hexDigits := by
  decide

theorem toHex_units (b : Bytes) :
    isBytes b = true → ∀ u ∈ toHex b, u ∈ hexDigits := by
  induction b with
  | nil => intro _ u hu; simp [toHex] at hu
  | cons x xs ih =>
    intro hb u hu
    have hx : x < 256 := by simpa using (List.all_eq_true.mp hb x (by simp))
    have hxs : isBytes xs = true := by
      simp only [isBytes, List.all_eq_true] at hb ⊢
      intro y hy; exact hb y (by simp [hy])
    simp only [toHex, List.flatMap_cons, List.mem_append, List.mem_cons] at hu
    rcases hu with (h | h | h) | h
    · exact h ▸ hexDig_mem (x / 16) (by omega)
    · exact h ▸ hexDig_mem (x % 16) (by omega)
    · simp at h
    · exact ih hxs u h

theorem fromHexPairs_toHex (b : Bytes) :
    isBytes b = true → fromHexPairs ((toHex b).map lowerUnit) = some b := by
  induction b with
  | nil => intro _; rfl
  | cons x xs ih =>
    intro hb
    have hx : x < 256 := by simpa using (List.all_eq_true.mp hb x (by simp))
    have hxs : isBytes xs = true := by
      simp only [isBytes, List.all_eq_true] at hb ⊢
      intro y hy; exact hb y (by simp [hy])
    have hd1 : x / 16 < 16 := by omega
    have hd2 : x % 16 < 16 := by omega
    have hx16 : 16 * (x / 16) + x % 16 = x := by omega
    show fromHexPairs (lowerUnit (hexDigits.getD (x / 16) 0) ::
      lowerUnit (hexDigits.getD (x % 16) 0) :: (toHex xs).map lowerUnit) = some (x :: xs)
    rw [lower_hexDig _ hd1, lower_hexDig _ hd2]
    simp only [fromHexPairs, hexVal_hexDig _ hd1, hexVal_hexDig _ hd2, ih hxs, hx16]

/-- Decoding the hexadecimal encoding of a byte buffer recovers the
buffer: the roundtrip property of BufferTools.fromHex and toHex. -/
theorem fromHex_toHex (b : Bytes) (hb : isBytes b = true) :
    fromHex (toHex b) = some b := by
  unfold fromHex
  rw [toHex_length]
  simp [fromHexPairs_toHex b hb]

theorem mem_hexDigits_lt : ∀ u ∈ hexDigits, u < 256 := by
  decide

theorem dropWhile_append_all {p : Nat → Bool} (a b : List Nat)
    (h : ∀ x ∈ a, p x = true) : (a ++ b).dropWhile p = b.dropWhile p := by
  induction a with
  | nil => rfl
  | cons x xs ih =>
    simp only [List.cons_append, List.dropWhile_cons, h x (by simp)]
    exact ih (fun y hy => h y (by simp [hy]))

/-- The region match of toObject on a framed buffer: when the body
starts with an opening brace, ends with a closing brace, has something
line-terminator-free in between, and the flanking noise contains no
opening brace on the left and no closing brace on the right, exactly
the body is recovered. -/
theorem extractRegion_append (pre body post : Bytes)
    (hpre : ∀ x ∈ pre, x ≠ 123) (hpost : ∀ x ∈ post, x ≠ 125)
    (hh : body.head? = some 123) (hl : body.getLast? = some 125)
    (hlen : 3 ≤ body.length)
    (hint : (body.drop 1).dropLast.all (fun c => ¬ (c ∈ lineTerminators)) = true) :
    extractRegion (pre ++ body ++ post) = some body := by
  obtain ⟨b0, brest, rfl⟩ : ∃ b0 brest, body = b0 :: brest := by
    cases body with
    | nil => simp at hh
    | cons b0 brest => exact ⟨b0, brest, rfl⟩
  have hb0 : b0 = 123 := by simpa using hh
  subst hb0
  have hstep1 : ((pre ++ (123 :: brest)) ++ post).dropWhile (fun c => c ≠ 123) =
      (123 :: brest) ++ post := by
    rw [List.append_assoc]
    rw [dropWhile_append_all pre ((123 :: brest) ++ post)
      (fun x hx => by simpa using hpre x hx)]
    simp [List.dropWhile_cons]
  obtain ⟨tl, htl⟩ : ∃ tl, ((123 : Nat) :: brest).reverse = 125 :: tl := by
    have hrev : ((123 : Nat) :: brest).reverse.head? = some 125 := by
      rw [List.head?_reverse]; exact hl
    cases hrv : ((123 : Nat) :: brest).reverse with
    | nil => rw [hrv] at hrev; simp at hrev
    | cons a t =>
      rw [hrv] at hrev
      simp only [List.head?_cons, Option.some.injEq] at hrev
      exact ⟨t, by rw [hrev]⟩
  have hstep2 : (((123 :: brest) ++ post).reverse.dropWhile (fun c => c ≠ 125)).reverse =
      (123 :: brest) := by
    rw [List.reverse_append]
    rw [dropWhile_append_all post.reverse ((123 : Nat) :: brest).reverse
      (fun x hx => by simpa using hpost x (by simpa using hx))]
    rw [htl]
    simp only [List.dropWhile_cons, decide_eq_true_eq]
    rw [if_neg (by simp)]
    rw [← htl, List.reverse_reverse]
  unfold extractRegion
  rw [hstep1, hstep2]
  unfold extractCheck
  rw [if_pos ⟨hlen, by simp, hl, hint⟩]

end BufferToolsLemmas

/-- Decimal digit test of the backslash-d character class. -/
def isDigitUnit (u : Nat) : Bool := 48 ≤ u && u ≤ 57

/-- Numeric value of an all-digit code unit list, as parseInt computes
it for such input. -/
def digitsToNat (ds : JSStr) : Nat := ds.foldl (fun a c => 10 * a + (c - 48)) 0

/-- The version-tag expression used by decryptData (part_001 line 1158)
and decryptObject (part_001 line 1041): anchored digits, a dollar sign,
then a nonempty line-terminator-free remainder.  Because the digit run
cannot contain a dollar sign, a match splits the string at its first
dollar sign; any failure yields none (the legacy path). -/
def parseVersionTag (s : JSStr) : Option (Nat × JSStr) :=
  let ds := s.takeWhile isDigitUnit
  match s.drop ds.length with
  | 36 :: tail =>
    if ds ≠ [] ∧ tail ≠ [] ∧ tail.all (fun c => ¬ (c ∈ lineTerminators)) then
      some (digitsToNat ds, tail)
    else none
  | _ => none

/-- Dollar-sign splitter backing the four-part hash string expression:
behaves like String.prototype.split on the dollar sign. -/
def splitD : JSStr → List JSStr
  | [] => [[]]
  | c :: rest =>
    if c = 36 then [] :: splitD rest
    else
      match splitD rest with
      | h :: t => (c :: h) :: t
      | [] => [[c]]

/-- The hash string expression of checkPassword and queryPasswordSalt
(part_001 lines 1309 and 1344): dollar, the literal ceph1, then three
nonempty dollar-free components. -/
def parseHashString (hash : JSStr) : Option (JSStr × JSStr × JSStr) :=
  match splitD hash with
  | [lead, tag, enc, salt, digestPart] =>
    if lead = [] ∧ tag = js "ceph1" ∧ enc ≠ [] ∧ salt ≠ [] ∧ digestPart ≠ [] then
      some (enc, salt, digestPart)
    else none
  | _ => none

/-- The padding-stripping expression of hashPassword (part_001 lines
1257 and 1274): a nonempty equals-free group followed by any number of
equals signs; none models the failed match. -/
def stripPadding (s : JSStr) : Option JSStr :=
  let body := s.takeWhile (fun c => c ≠ 61)
  if body ≠ [] ∧ (s.drop body.length).all (fun c => c = 61) then some body else none

section ParseLemmas

theorem splitD_nil : splitD [] = [[]] := rfl

theorem splitD_no_sep (a : JSStr) : (∀ x ∈ a, x ≠ 36) → splitD a = [a] := by
  induction a with
  | nil => intro _; rfl
  | cons x xs ih =>
    intro ha
    have hx : x ≠ 36 := ha x (by simp)
    have hxs := ih (fun y hy => ha y (by simp [hy]))
    rw [splitD, if_neg hx, hxs]

theorem splitD_sep_append (a b : JSStr) :
    (∀ x ∈ a, x ≠ 36) → splitD (a ++ 36 :: b) = a :: splitD b := by
  induction a with
  | nil =>
    intro _
    rw [List.nil_append, splitD, if_pos rfl]
  | cons x xs ih =>
    intro ha
    have hx : x ≠ 36 := ha x (by simp)
    have hxs := ih (fun y hy => ha y (by simp [hy]))
    rw [List.cons_append, splitD, if_neg hx, hxs]

theorem takeWhile_append_all {p : Nat → Bool} (a b : List Nat)
    (h : ∀ x ∈ a, p x = true) : (a ++ b).takeWhile p = a ++ b.takeWhile p := by
  induction a with
  | nil => rfl
  | cons x xs ih =>
    simp only [List.cons_append, List.takeWhile_cons, h x (by simp)]
    rw [ih (fun y hy => h y (by simp [hy]))]
    simp

end ParseLemmas

/-- The two symmetric cipher names the version switch can select. -/
inductive SAlgoName
  | aesCbc
  | aesGcm
deriving DecidableEq, Repr

/-- The version switch shared by encryptObject, decryptObject,
encryptData and decryptData (part_001 lines 964-968, 1050-1054,
1105-1109, 1167-1171): version 1 selects AES-CBC with a 16-byte IV,
version 2 selects AES-GCM with a 12-byte IV, anything else rejects. -/
def versionAlgo : Nat → Option (SAlgoName × Nat)
  | 1 => some (.aesCbc, 16)
  | 2 => some (.aesGcm, 12)
  | _ => none

/-- The pieces of a JSON Web Key the sources read: only the modulus
component n is ever inspected; the rest of the structure is opaque to
the embedding. -/
structure Jwk where
  n : JSStr
deriving DecidableEq, Repr

/-- The external collaborators of the Crypto class: the Web Crypto
subtle interface, getRandomValues being passed in separately as
explicit random arguments, plus window.btoa and window.atob.  RSA key
handles are opaque naturals; symmetric key handles are identified with
their raw byte export, which makes the raw import of subtle.importKey
the identity on well-formed byte keys (stated as a hypothesis where
needed, since the import may also fail).  All contracts of these
functions enter theorems as hypotheses. -/
structure Provider where
  available : Bool
  rsaEncrypt : Nat → Bytes → Except JsError Bytes
  rsaDecrypt : Nat → Bytes → Except JsError Bytes
  importRsaPub : JSStr → Except JsError Nat
  importRsaPriv : Jwk → Except JsError Nat
  aesImportKey : Bytes → Except JsError Bytes
  aesEncrypt : SAlgoName → Bytes → Bytes → Bytes → Except JsError Bytes
  aesDecrypt : SAlgoName → Bytes → Bytes → Bytes → Except JsError Bytes
  digest : Bytes → Bytes
  btoa : JSStr → JSStr
  atob : JSStr → Except JsError JSStr

/-- The four key fields of a Crypto instance (part_001 lines 526-529);
null is modelled as none. -/
structure CryptoState where
  publicKey : Option Nat
  privateKey : Option Nat
  publicKeyExport : Option JSStr
  privateKeyExport : Option JSStr
deriving DecidableEq, Repr

/-- The state every field-clearing assignment block produces. -/
def CryptoState.cleared : CryptoState :=
  ⟨none, none, none, none⟩

/-- Model of Crypto.hasKeyPair (part_001 lines 561-565): the public key
export is a string and both key handles are CryptoKey instances. -/
def CryptoState.hasKeyPair (s : CryptoState) : Bool :=
  s.publicKeyExport.isSome && s.publicKey.isSome && s.privateKey.isSome

/-- Model of Crypto.hasPublicKey (part_001 lines 571-574). -/
def CryptoState.hasPublicKey (s : CryptoState) : Bool :=
  s.publicKeyExport.isSome && s.publicKey.isSome

/-- A record of the key store (the keys object written by
generateKeyPair and importPrivateKey and read back by loadKeyPair). -/
structure StoredKeys where
  pub : Option Nat
  priv : Option Nat
  publicExport : Option JSStr
  privateExport : Option JSStr
deriving DecidableEq, Repr

/-- Result type of decryptObject: the decrypted object or the false
sentinel produced by the OperationError catch branch. -/
inductive DecOut (Obj : Type)
  | obj (o : Obj)
  | falseOut
deriving DecidableEq, Repr

/-- Result record of encryptObject (part_001 lines 1001-1006). -/
structure EncOut where
  message : JSStr
  key : JSStr
deriving DecidableEq, Repr

/-- What decryptData can see of a JSON.parse result (part_001 line
1191): either an object with a string data field, whose content is
retained, or anything else, which fails the validation. -/
inductive DVal
  | dataStr (s : JSStr)
  | other
deriving DecidableEq, Repr

/-- The symmetric key derivation of encryptData and decryptData
(part_001 lines 1115-1118 and 1176-1179): the 32-byte key buffer is
filled with password.charCodeAt(i % password.length), each code unit
truncated modulo 256 by the Uint8Array store. -/
def deriveKey (password : JSStr) : Bytes :=
  (List.range 32).map (fun i => password.getD (i % password.length) 0 % 256)

/-- The external JSON.stringify image of the wrapper object
(braces written as escapes): applied to an object with a single data
field holding a string that needs no JSON escaping, it yields the
concatenation of a fixed opening part, the string, and a fixed closing
part.  Theorems restrict the payload with plainStr accordingly. -/
def jsonStringifyData (s : JSStr) : JSStr :=
  js "\x7b\"data\":\"" ++ s ++ js "\"\x7d"

/-- Code units that JSON.stringify emits unescaped inside a string
literal and that survive the byte roundtrip of fromAscii: printable
range, not the quote, not the backslash, below 256. -/
def plainUnit (u : Nat) : Bool := 32 ≤ u && u ≤ 255 && u ≠ 34 && u ≠ 92

/-- A payload string whose JSON serialization is plain concatenation. -/
def plainStr (s : JSStr) : Bool := s.all plainUnit

namespace Crypto

/-- Model of Crypto.encryptObject (part_001 lines 958-1007).  The
external pieces appear as parameters: stringify is JSON.stringify,
ivRand the getRandomValues stream filling the IV, freshKey the raw
export of the freshly generated symmetric key, and r0 r1 r2 noise the
random input of the noise framing.  The source checks the fromObject
result against null, but fromObject throws rather than returning null,
so that branch is dead and not modelled. -/
def encryptObject {Obj : Type} (P : Provider) (stringify : Obj → JSStr)
    (st : CryptoState) (dataObject : Obj) (version : Nat)
    (ivRand : Nat → Nat) (freshKey : Bytes) (r0 r1 r2 : Nat) (noise : Nat → Nat) :
    Except JsError EncOut :=
  if P.available = false then .error ⟨"Error", "Crypto: Invalid arguments"⟩
  else
    match versionAlgo version with
    | none => .error ⟨"Error", "Crypto: Invalid arguments"⟩
    | some (sAlgo, ivBytes) =>
      let plainBuffer := BufferTools.fromObject (stringify dataObject) true r0 r1 r2 noise
      let iVectorBuffer := (List.range ivBytes).map (fun i => ivRand i % 256)
      match P.aesEncrypt sAlgo iVectorBuffer freshKey plainBuffer with
      | .error e => .error e
      | .ok cipherBuffer =>
        match st.publicKey with
        | none => .error ⟨"TypeError", "Crypto: no public key loaded"⟩
        | some pk =>
          match P.rsaEncrypt pk (BufferTools.concat [iVectorBuffer, freshKey]) with
          | .error e => .error e
          | .ok keyBuffer =>
            .ok ⟨js (toString version) ++ [36] ++ P.btoa (BufferTools.toAscii cipherBuffer),
                 P.btoa (BufferTools.toAscii keyBuffer)⟩

/-- The part of decryptObject preceding the promise chain (part_001
lines 1027-1054): argument, availability and key-pair checks, base64
decoding of the key blob, version-tag parsing with base64 decoding of
the message, and the version switch.  Failures here are not caught by
the OperationError handler. -/
def decryptObjectPre (P : Provider) (st : CryptoState) (keyString messageString : JSStr) :
    Except JsError (Bytes × SAlgoName × Nat × Bytes) :=
  if P.available = false then .error ⟨"Error", "Crypto: Service is not available."⟩
  else if st.hasKeyPair = false then
    .error ⟨"Error", "Crypto: The private key is missing, decryption is not available."⟩
  else
    match P.atob keyString with
    | .error e => .error e
    | .ok keyAscii =>
      let keyBuffer := BufferTools.fromAscii keyAscii
      let decoded : Except JsError (Nat × Bytes) :=
        match parseVersionTag messageString with
        | none =>
          match P.atob messageString with
          | .error e => .error e
          | .ok ma => .ok (1, BufferTools.fromAscii ma)
        | some (v, m2) =>
          match P.atob m2 with
          | .error e => .error e
          | .ok ma => .ok (v, BufferTools.fromAscii ma)
      match decoded with
      | .error e => .error e
      | .ok (version, cipherBuffer) =>
        match versionAlgo version with
        | none => .error ⟨"Error", "Crypto: Invalid arguments"⟩
        | some (sAlgo, ivBytes) => .ok (keyBuffer, sAlgo, ivBytes, cipherBuffer)

/-- The promise chain of decryptObject (part_001 lines 1058-1072): RSA
decryption of the key blob, splitting off the IV, raw import of the
symmetric key, symmetric decryption, and extraction of the object.
Errors from any of these steps reach the catch handler. -/
def decryptObjectInner {Obj : Type} (P : Provider) (parse : Bytes → Except JsError Obj)
    (privateKey : Option Nat) (sAlgo : SAlgoName) (ivBytes : Nat)
    (keyBuffer cipherBuffer : Bytes) : Except JsError Obj :=
  match privateKey with
  | none => .error ⟨"TypeError", "Crypto: no private key loaded"⟩
  | some sk =>
    match P.rsaDecrypt sk keyBuffer with
    | .error e => .error e
    | .ok rsaPlain =>
      let bufArray := BufferTools.splitInTwo rsaPlain ivBytes
      match P.aesImportKey bufArray.2 with
      | .error e => .error e
      | .ok sKey =>
        match P.aesDecrypt sAlgo bufArray.1 sKey cipherBuffer with
        | .error e => .error e
        | .ok plainBuffer => BufferTools.toObject parse plainBuffer

/-- Model of Crypto.decryptObject (part_001 lines 1026-1080): runs the
preliminary steps, then the chain, whose errors are converted to the
false sentinel exactly when the error name is OperationError and
re-thrown otherwise (lines 1073-1079). -/
def decryptObject {Obj : Type} (P : Provider) (parse : Bytes → Except JsError Obj)
    (st : CryptoState) (keyString messageString : JSStr) : Except JsError (DecOut Obj) :=
  match decryptObjectPre P st keyString messageString with
  | .error e => .error e
  | .ok (keyBuffer, sAlgo, ivBytes, cipherBuffer) =>
    match decryptObjectInner P parse st.privateKey sAlgo ivBytes keyBuffer cipherBuffer with
    | .ok o => .ok (.obj o)
    | .error e => if e.name = "OperationError" then .ok .falseOut else .error e

/-- Model of Crypto.encryptData (part_001 lines 1096-1132): argument
and availability checks, version switch, random IV, repeated-password
key, noise-framed wrapper object, raw key import, symmetric
encryption, and the version-tagged hexadecimal output string. -/
def encryptData (P : Provider) (dataString password : JSStr) (version : Nat)
    (ivRand : Nat → Nat) (r0 r1 r2 : Nat) (noise : Nat → Nat) : Except JsError JSStr :=
  if password = [] then .error ⟨"Error", "Crypto: Invalid arguments"⟩
  else if P.available = false then .error ⟨"Error", "Crypto: Service is not available"⟩
  else
    match versionAlgo version with
    | none => .error ⟨"Error", "Crypto: Invalid arguments"⟩
    | some (sAlgo, ivBytes) =>
      let iVector := (List.range ivBytes).map (fun i => ivRand i % 256)
      let iVectorString := BufferTools.toHex iVector
      let sKeyBuffer := deriveKey password
      let dataBuffer := BufferTools.fromObject (jsonStringifyData dataString) true r0 r1 r2 noise
      match P.aesImportKey sKeyBuffer with
      | .error e => .error e
      | .ok sKey =>
        match P.aesEncrypt sAlgo iVector sKey dataBuffer with
        | .error e => .error e
        | .ok encryptedBuffer =>
          .ok (js (toString version) ++ [36] ++ iVectorString ++ BufferTools.toHex encryptedBuffer)

/-- The promise chain of decryptData (part_001 lines 1183-1196): raw
key import, symmetric decryption, extraction and validation of the
wrapper object.  Every error from this chain is absorbed by the final
catch of decryptData. -/
def decryptDataChain (P : Provider) (parseData : Bytes → Except JsError DVal)
    (sAlgo : SAlgoName) (iVector sKeyBuffer encryptedBuffer : Bytes) : Except JsError DVal :=
  match P.aesImportKey sKeyBuffer with
  | .error e => .error e
  | .ok sKey =>
    match P.aesDecrypt sAlgo iVector sKey encryptedBuffer with
    | .error e => .error e
    | .ok dataBuffer => BufferTools.toObject parseData dataBuffer

/-- The body of decryptData after the version has been determined
(part_001 lines 1167-1199): version switch, synchronous hexadecimal
decoding of IV and payload (whose failures are thrown, not caught by
the final catch), repeated-password key, then the promise chain whose
every failure resolves to null, as does a decrypted payload without a
string data field. -/
def decryptDataCore (P : Provider) (parseData : Bytes → Except JsError DVal)
    (version : Nat) (data password : JSStr) : Except JsError (Option JSStr) :=
  match versionAlgo version with
  | none => .error ⟨"Error", "Crypto: Invalid arguments"⟩
  | some (sAlgo, ivBytes) =>
    match BufferTools.fromHex (data.take (ivBytes * 2)) with
    | none => .error ⟨"Error", "BufferTools.fromHex(): Invalid arguments"⟩
    | some iVector =>
      let sKeyBuffer := deriveKey password
      match BufferTools.fromHex (data.drop (ivBytes * 2)) with
      | none => .error ⟨"Error", "BufferTools.fromHex(): Invalid arguments"⟩
      | some encryptedBuffer =>
        match decryptDataChain P parseData sAlgo iVector sKeyBuffer encryptedBuffer with
        | .error _ => .ok none
        | .ok (.dataStr s) => .ok (some s)
        | .ok .other => .ok none

/-- Model of Crypto.decryptData (part_001 lines 1147-1200): argument
and availability checks, then the version-tag parse whose failure
selects the legacy version 1 over the whole input. -/
def decryptData (P : Provider) (parseData : Bytes → Except JsError DVal)
    (encryptedData password : JSStr) : Except JsError (Option JSStr) :=
  if encryptedData = [] ∨ password = [] then .error ⟨"Error", "Crypto: Invalid arguments"⟩
  else if P.available = false then .error ⟨"Error", "Crypto: Service is not available"⟩
  else
    match parseVersionTag encryptedData with
    | none => decryptDataCore P parseData 1 encryptedData password
    | some (version, data) => decryptDataCore P parseData version data password

/-- Model of Crypto.importPublicKey (part_001 lines 764-798): format
check, availability check, clearing of all four fields, then the
import, which on success sets the public key handle and export. -/
def importPublicKey (P : Provider) (st : CryptoState) (keyString : JSStr) :
    Except JsError Unit × CryptoState :=
  if keyString = [] ∨ keyString.take 16 ≠ js "$ceph1-publ$jwk$" then
    (.error ⟨"Error", "Crypto: Invalid arguments"⟩, st)
  else if P.available = false then
    (.error ⟨"Error", "Crypto: Service is not available"⟩, st)
  else
    match P.importRsaPub (keyString.drop 16) with
    | .error e => (.error e, CryptoState.cleared)
    | .ok k =>
      (.ok (), { CryptoState.cleared with publicKey := some k, publicKeyExport := some keyString })

/-- Model of Crypto.importPrivateKey (part_001 lines 840-915): format
and availability checks, decryption of the export via decryptData; a
null result resolves to false with the session untouched, otherwise the
private and the reconstructed public key are imported, the bundle is
written to the store (writeRes models that round-trip), and only then
are the four fields assigned. -/
def importPrivateKey (P : Provider) (parseData : Bytes → Except JsError DVal)
    (parseJwk : JSStr → Except JsError Jwk) (dbReady : Bool)
    (writeRes : Except JsError Unit) (st : CryptoState)
    (pKeyString exportPassword : JSStr) : Except JsError Bool × CryptoState :=
  if pKeyString.take 16 ≠ js "$ceph1-priv$hex$" ∨ exportPassword = [] then
    (.error ⟨"Error", "Invalid arguments"⟩, st)
  else if P.available = false ∨ dbReady = false then
    (.error ⟨"Error", "Crypto: Service is not available"⟩, st)
  else
    match decryptData P parseData (pKeyString.drop 16) exportPassword with
    | .error e => (.error e, st)
    | .ok none => (.ok false, st)
    | .ok (some result) =>
      match parseJwk result with
      | .error e => (.error e, st)
      | .ok privateKeyJWK =>
        let publicExport := js "$ceph1-publ$jwk$" ++ privateKeyJWK.n
        match P.importRsaPriv privateKeyJWK with
        | .error e => (.error e, st)
        | .ok sk =>
          match P.importRsaPub (publicExport.drop 16) with
          | .error e => (.error e, st)
          | .ok pk =>
            match writeRes with
            | .error e => (.error e, st)
            | .ok () =>
              (.ok true, ⟨some pk, some sk, some publicExport, some pKeyString⟩)

/-- Model of Crypto.loadKeyPair (part_001 lines 731-750): availability
check, clearing of all four fields, then the store read; a missing
record leaves the cleared state, a record populates the fields. -/
def loadKeyPair (P : Provider) (dbReady : Bool)
    (readRes : Except JsError (Option StoredKeys)) (st : CryptoState) :
    Except JsError Unit × CryptoState :=
  if P.available = false ∨ dbReady = false then
    (.error ⟨"Error", "Crypto: Service is not available"⟩, st)
  else
    match readRes with
    | .error e => (.error e, CryptoState.cleared)
    | .ok none => (.ok (), CryptoState.cleared)
    | .ok (some keys) =>
      (.ok (), ⟨keys.pub, keys.priv, keys.publicExport, keys.privateExport⟩)

end Crypto

/-- Model of the module-level hashPassword (part_001 lines 1236-1285):
argument and availability checks; a fresh random 16-byte salt is
encoded with btoa or toHex, a supplied base64 salt is decoded with atob
and stored with its padding stripped, a supplied hexadecimal salt is
decoded with fromHex and stored verbatim; the SHA-256 digest of the
password concatenated with the raw salt string is encoded likewise
(base64 output always padding-stripped), and the four components are
joined with dollar signs. -/
def hashPassword (P : Provider) (password : JSStr) (salt : Option JSStr)
    (encoding : String) (saltRand : Nat → Nat) : Except JsError JSStr :=
  if password = [] ∨ salt = some [] ∨ (encoding ≠ "base64" ∧ encoding ≠ "hex") then
    .error ⟨"Error", "Crypto: Invalid arguments"⟩
  else if P.available = false then .error ⟨"Error", "Crypto: Service is not available."⟩
  else
    let saltRes : Except JsError (JSStr × JSStr) :=
      match salt with
      | none =>
        let saltBuffer := (List.range 16).map (fun i => saltRand i % 256)
        let saltString := BufferTools.toAscii saltBuffer
        .ok (saltString,
          if encoding = "base64" then P.btoa saltString else BufferTools.toHex saltBuffer)
      | some saltGiven =>
        if encoding = "base64" then
          match P.atob saltGiven with
          | .error e => .error e
          | .ok saltString =>
            match stripPadding saltGiven with
            | none => .error ⟨"Error", "Crypto: Encoding failed"⟩
            | some body => .ok (saltString, body)
        else
          match BufferTools.fromHex saltGiven with
          | none => .error ⟨"Error", "BufferTools.fromHex(): Invalid arguments"⟩
          | some b => .ok (BufferTools.toAscii b, saltGiven)
    match saltRes with
    | .error e => .error e
    | .ok (saltString, saltEncoded) =>
      let hashBuffer := P.digest (BufferTools.fromAscii (password ++ saltString))
      let hashRes : Except JsError JSStr :=
        if encoding = "base64" then
          match stripPadding (P.btoa (BufferTools.toAscii hashBuffer)) with
          | none => .error ⟨"Error", "Crypto: Encoding failed"⟩
          | some body => .ok body
        else .ok (BufferTools.toHex hashBuffer)
      match hashRes with
      | .error e => .error e
      | .ok hashEncoded =>
        .ok (js "$ceph1$" ++ js encoding ++ js "$" ++ saltEncoded ++ js "$" ++ hashEncoded)

/-- Model of the module-level checkPassword (part_001 lines 1298-1330):
argument, availability and format checks, decoding of salt and hash in
the recorded encoding, then comparison of the recorded hash string with
the ASCII image of the recomputed digest. -/
def checkPassword (P : Provider) (password hash : JSStr) : Except JsError Bool :=
  if password = [] ∨ hash = [] then .error ⟨"Error", "Crypto: Invalid arguments"⟩
  else if P.available = false then .error ⟨"Error", "Crypto: Service is not available."⟩
  else
    match parseHashString hash with
    | none => .error ⟨"Error", "Crypto: Invalid arguments"⟩
    | some (enc, saltC, hashC) =>
      if enc ≠ js "base64" ∧ enc ≠ js "hex" then .error ⟨"Error", "Crypto: Invalid arguments"⟩
      else
        let decoded : Except JsError (JSStr × JSStr) :=
          if enc = js "base64" then
            match P.atob saltC with
            | .error e => .error e
            | .ok saltString =>
              match P.atob hashC with
              | .error e => .error e
              | .ok hashString => .ok (saltString, hashString)
          else
            match BufferTools.fromHex saltC with
            | none => .error ⟨"Error", "BufferTools.fromHex(): Invalid arguments"⟩
            | some sb =>
              match BufferTools.fromHex hashC with
              | none => .error ⟨"Error", "BufferTools.fromHex(): Invalid arguments"⟩
              | some hb => .ok (BufferTools.toAscii sb, BufferTools.toAscii hb)
        match decoded with
        | .error e => .error e
        | .ok (saltString, hashString) =>
          .ok (hashString =
            BufferTools.toAscii (P.digest (BufferTools.fromAscii (password ++ saltString))))

/-- Model of the module-level queryPasswordSalt (part_001 lines
1339-1357): an empty hash string throws; a string failing the format
or naming an unknown encoding yields null; a base64 hash yields the
salt component verbatim; a hexadecimal hash yields the hexadecimal
image of the atob decoding of the salt component, the atob exception
propagating uncaught. -/
def queryPasswordSalt (atobF : JSStr → Except JsError JSStr) (hash : JSStr) :
    Except JsError (Option JSStr) :=
  if hash = [] then .error ⟨"Error", "Crypto: Invalid arguments"⟩
  else
    match parseHashString hash with
    | none => .ok none
    | some (enc, saltC, _) =>
      if enc = js "base64" then .ok (some saltC)
      else if enc = js "hex" then
        match atobF saltC with
        | .error e => .error e
        | .ok s => .ok (some (BufferTools.toHex (BufferTools.fromAscii s)))
      else .ok none

/-- The base64 alphabet in value order. -/
def b64Alphabet : List Nat :=
  js "ABCDEFGHIJKLMNOPQRSTUVWXYZabcdefghijklmnopqrstuvwxyz0123456789+/"

/-- Code unit of a six-bit value. -/
def b64Unit (v : Nat) : Nat := b64Alphabet.getD (v % 64) 65

/-- Six-bit value of an alphabet code unit. -/
def b64Val (u : Nat) : Option Nat := b64Alphabet.findIdx? (fun d => d = u)

/-- Concrete model of window.btoa on byte buffers: standard base64 with
padding.  Used to instantiate the abstract btoa parameter on concrete
inputs. -/
def btoaJS : Bytes → JSStr
  | [] => []
  | [a] => [b64Unit (a / 4), b64Unit (a % 4 * 16), 61, 61]
  | [a, b] => [b64Unit (a / 4), b64Unit (a % 4 * 16 + b / 16), b64Unit (b % 16 * 4), 61]
  | a :: b :: c :: rest =>
    [b64Unit (a / 4), b64Unit (a % 4 * 16 + b / 16), b64Unit (b % 16 * 4 + c / 64),
      b64Unit (c % 64)] ++ btoaJS rest

/-- Four-character chunk decoding of the base64 decoder. -/
def atobChunks : JSStr → Option Bytes
  | [] => some []
  | [_] => none
  | [c1, c2] =>
    match b64Val c1, b64Val c2 with
    | some v1, some v2 => some [v1 * 4 + v2 / 16]
    | _, _ => none
  | [c1, c2, c3] =>
    match b64Val c1, b64Val c2, b64Val c3 with
    | some v1, some v2, some v3 => some [v1 * 4 + v2 / 16, v2 % 16 * 16 + v3 / 4]
    | _, _, _ => none
  | c1 :: c2 :: c3 :: c4 :: rest =>
    match b64Val c1, b64Val c2, b64Val c3, b64Val c4, atobChunks rest with
    | some v1, some v2, some v3, some v4, some tail =>
      some ([v1 * 4 + v2 / 16, v2 % 16 * 16 + v3 / 4, v3 % 4 * 64 + v4] ++ tail)
    | _, _, _, _, _ => none

/-- Concrete model of window.atob: the forgiving base64 decode, which
strips ASCII whitespace, removes up to two trailing equals signs when
the length is a multiple of four, and rejects a remainder of one. -/
def atobJS (s : JSStr) : Except JsError JSStr :=
  let t := s.filter (fun c => ¬ (c ∈ [9, 10, 12, 13, 32]))
  let t2 := if t.length % 4 = 0 then
      match t.reverse with
      | 61 :: 61 :: rest => rest.reverse
      | 61 :: rest => rest.reverse
      | _ => t
    else t
  if t2.length % 4 = 1 then .error ⟨"InvalidCharacterError", "atob"⟩
  else
    match atobChunks t2 with
    | none => .error ⟨"InvalidCharacterError", "atob"⟩
    | some b => .ok (BufferTools.toAscii b)

section ExternalContracts

/-- Contract of the btoa and atob pair on byte strings: decoding an
encoding recovers the input. -/
def AtobBtoa (P : Provider) : Prop :=
  ∀ b : Bytes, isBytes b = true →
    P.atob (P.btoa (BufferTools.toAscii b)) = .ok (BufferTools.toAscii b)

/-- Contract of btoa output characters: base64 output never contains a
dollar sign or a line terminator, so a version tag survives in front of
it, and it is nonempty on nonempty input. -/
def BtoaTagSafe (P : Provider) : Prop :=
  ∀ s : JSStr, (∀ u ∈ P.btoa s, u ≠ 36 ∧ ¬ (u ∈ lineTerminators)) ∧ (s ≠ [] → P.btoa s ≠ [])

/-- Contract of btoa output shape for the padding strip of
hashPassword: on a nonempty byte string the output splits into a
nonempty dollar-free padding-free body recovered by stripPadding, and
atob of the stripped body still decodes to the input. -/
def BtoaStrippable (P : Provider) : Prop :=
  ∀ b : Bytes, isBytes b = true → b ≠ [] →
    ∃ body, stripPadding (P.btoa (BufferTools.toAscii b)) = some body ∧
      P.atob body = .ok (BufferTools.toAscii b) ∧ body ≠ [] ∧ (∀ u ∈ body, u ≠ 36)

/-- Contract of the SHA-256 digest: a nonempty byte buffer of byte
values (the real digest always returns 32 bytes). -/
def DigestGood (P : Provider) : Prop :=
  ∀ x : Bytes, isBytes (P.digest x) = true ∧ P.digest x ≠ []

/-- Contract of the raw symmetric key import: on our identification of
symmetric key handles with their raw export, importing raw bytes is the
identity. -/
def ImportKeyRaw (P : Provider) : Prop :=
  ∀ b : Bytes, isBytes b = true → P.aesImportKey b = .ok b

/-- Contract of one symmetric cipher: encryption succeeds on byte
input, produces a nonempty byte ciphertext, and decryption under the
same parameters recovers the plaintext. -/
def SymCipherGood (P : Provider) (sAlgo : SAlgoName) : Prop :=
  ∀ iv key d : Bytes, isBytes d = true →
    ∃ c, P.aesEncrypt sAlgo iv key d = .ok c ∧ isBytes c = true ∧ c ≠ [] ∧
      P.aesDecrypt sAlgo iv key c = .ok d

/-- Contract of one matching RSA-OAEP key pair: encryption under the
public handle succeeds on byte input with a byte ciphertext, and
decryption under the private handle recovers the plaintext. -/
def RsaPairGood (P : Provider) (pub priv : Nat) : Prop :=
  ∀ m : Bytes, isBytes m = true →
    ∃ c, P.rsaEncrypt pub m = .ok c ∧ isBytes c = true ∧ P.rsaDecrypt priv c = .ok m

end ExternalContracts

section FramingLemmas

open BufferTools

theorem isBytes_fromAscii (s : JSStr) : isBytes (fromAscii s) = true := by
  simp only [isBytes, fromAscii, List.all_eq_true]
  intro x hx
  obtain ⟨u, _, rfl⟩ := List.mem_map.mp hx
  simpa using Nat.mod_lt u (by omega)

theorem takeWhile_all_of {p : Nat → Bool} (a : List Nat)
    (h : ∀ x ∈ a, p x = true) : a.takeWhile p = a := by
  have := takeWhile_append_all a [] h
  simpa using this

theorem stripPadding_no61 (s : JSStr) (h : ∀ x ∈ s, x ≠ 61) (hne : s ≠ []) :
    stripPadding s = some s := by
  unfold stripPadding
  have hw : s.takeWhile (fun c => c ≠ 61) = s :=
    takeWhile_all_of s (fun x hx => by simpa using h x hx)
  simp only [hw]
  rw [if_pos ⟨hne, by simp⟩]

theorem noiseAmount_bounds (r : Nat) : 15 ≤ noiseAmount r ∧ noiseAmount r ≤ 64 := by
  unfold noiseAmount
  have := Nat.mod_lt (r % 256) (show 0 < 50 by omega)
  omega

theorem noiseFiller_safe (r2 : Nat) : ¬ (noiseFiller r2 ∈ nonNoiseCharacters) := by
  unfold noiseFiller
  by_cases hc : (r2 % 256) ∈ nonNoiseCharacters
  · rw [if_pos hc]; decide
  · rw [if_neg hc]; exact hc

theorem noiseBuf_safe (r0 r1 r2 : Nat) (noise : Nat → Nat) :
    ∀ x ∈ noiseBuf r0 r1 r2 noise, ¬ (x ∈ nonNoiseCharacters) := by
  intro x hx
  unfold noiseBuf at hx
  obtain ⟨i, _, rfl⟩ := List.mem_map.mp hx
  by_cases hc : (noise i % 256) ∈ nonNoiseCharacters
  · rw [if_pos hc]; exact noiseFiller_safe r2
  · rw [if_neg hc]; exact hc

theorem noiseBuf_length (r0 r1 r2 : Nat) (noise : Nat → Nat) :
    (noiseBuf r0 r1 r2 noise).length = noiseAmount r0 + noiseAmount r1 := by
  unfold noiseBuf
  rw [List.length_map, List.length_range]

theorem noisePre_length (r0 r1 r2 : Nat) (noise : Nat → Nat) :
    (noisePre r0 r1 r2 noise).length = noiseAmount r0 := by
  unfold noisePre
  rw [List.length_take, noiseBuf_length]
  omega

theorem noisePost_length (r0 r1 r2 : Nat) (noise : Nat → Nat) :
    (noisePost r0 r1 r2 noise).length = noiseAmount r1 := by
  unfold noisePost
  rw [List.length_drop, noiseBuf_length]
  omega

theorem noisePre_safe (r0 r1 r2 : Nat) (noise : Nat → Nat) :
    ∀ x ∈ noisePre r0 r1 r2 noise, ¬ (x ∈ nonNoiseCharacters) :=
  fun x hx => noiseBuf_safe r0 r1 r2 noise x (List.take_subset _ _ hx)

theorem noisePost_safe (r0 r1 r2 : Nat) (noise : Nat → Nat) :
    ∀ x ∈ noisePost r0 r1 r2 noise, ¬ (x ∈ nonNoiseCharacters) :=
  fun x hx => noiseBuf_safe r0 r1 r2 noise x (List.drop_subset _ _ hx)

/-- The noise framing places the body between two noise runs of 15 to
64 bytes, none of which is a reserved byte. -/
theorem addNoiseFraming_spec (dataBuffer : Bytes) (r0 r1 r2 : Nat) (noise : Nat → Nat) :
    ∃ pre post, addNoiseFraming dataBuffer r0 r1 r2 noise = pre ++ dataBuffer ++ post ∧
      15 ≤ pre.length ∧ pre.length ≤ 64 ∧ 15 ≤ post.length ∧ post.length ≤ 64 ∧
      (∀ x ∈ pre, ¬ (x ∈ nonNoiseCharacters)) ∧
      (∀ x ∈ post, ¬ (x ∈ nonNoiseCharacters)) := by
  refine ⟨noisePre r0 r1 r2 noise, noisePost r0 r1 r2 noise, rfl, ?_, ?_, ?_, ?_,
    noisePre_safe r0 r1 r2 noise, noisePost_safe r0 r1 r2 noise⟩
  · rw [noisePre_length]; exact (noiseAmount_bounds r0).1
  · rw [noisePre_length]; exact (noiseAmount_bounds r0).2
  · rw [noisePost_length]; exact (noiseAmount_bounds r1).1
  · rw [noisePost_length]; exact (noiseAmount_bounds r1).2

/-- A JSON body usable by the region match of toObject: byte values,
an opening brace first, a closing brace last, at least one character in
between, none of them a line terminator. -/
def GoodBody (b : JSStr) : Prop :=
  isBytes b = true ∧ b.head? = some 123 ∧ b.getLast? = some 125 ∧ 3 ≤ b.length ∧
    ((b.drop 1).dropLast.all (fun c => ¬ (c ∈ lineTerminators))) = true

/-- The region match recovers a good body from a framed buffer, with
and without noise. -/
theorem extractRegion_fromObject (jsonStr : JSStr) (addNoise : Bool) (r0 r1 r2 : Nat)
    (noise : Nat → Nat) (hg : GoodBody jsonStr) :
    extractRegion (fromObject jsonStr addNoise r0 r1 r2 noise) = some jsonStr := by
  obtain ⟨hbytes, hh, hl, hlen, hint⟩ := hg
  unfold fromObject
  rw [fromAscii_of_isBytes _ hbytes]
  cases addNoise with
  | false =>
    have := extractRegion_append [] jsonStr [] (by simp) (by simp) hh hl hlen hint
    simpa using this
  | true =>
    obtain ⟨pre, post, heq, _, _, _, _, hpre, hpost⟩ :=
      addNoiseFraming_spec jsonStr r0 r1 r2 noise
    simp only [heq]
    exact extractRegion_append pre jsonStr post
      (fun x hx => by
        have := hpre x hx
        simp only [nonNoiseCharacters, List.mem_cons, List.mem_singleton] at this
        tauto)
      (fun x hx => by
        have := hpost x hx
        simp only [nonNoiseCharacters, List.mem_cons, List.mem_singleton] at this
        tauto)
      hh hl hlen hint

/-- Framing then extraction then parsing recovers the parsed object. -/
theorem toObject_fromObject {Obj : Type} (parse : Bytes → Except JsError Obj)
    (jsonStr : JSStr) (o : Obj) (addNoise : Bool) (r0 r1 r2 : Nat) (noise : Nat → Nat)
    (hg : GoodBody jsonStr) (hp : parse jsonStr = .ok o) :
    toObject parse (fromObject jsonStr addNoise r0 r1 r2 noise) = .ok o := by
  unfold toObject
  rw [extractRegion_fromObject jsonStr addNoise r0 r1 r2 noise hg]
  simp [hp]

theorem plainUnit_facts (u : Nat) (h : plainUnit u = true) :
    u < 256 ∧ ¬ (u ∈ lineTerminators) := by
  simp only [plainUnit, Bool.and_eq_true, decide_eq_true_eq] at h
  simp only [lineTerminators, List.mem_cons, List.mem_singleton, List.not_mem_nil, or_false]
  omega

/-- The serialized wrapper object of a plain payload string is a good
body for the region match. -/
theorem goodBody_stringifyData (s : JSStr) (hs : plainStr s = true) :
    GoodBody (jsonStringifyData s) := by
  have hpre : js "\x7b\"data\":\"" = 123 :: js "\"data\":\"" := by decide
  have hsuf : js "\"\x7d" = [34] ++ [125] := by decide
  have hsplit : jsonStringifyData s =
      123 :: (js "\"data\":\"" ++ s ++ ([34] ++ [125])) := by
    unfold jsonStringifyData
    rw [hpre, hsuf]
    simp [List.append_assoc]
  have hconcat : jsonStringifyData s =
      (123 :: (js "\"data\":\"" ++ s ++ [34])) ++ [125] := by
    rw [hsplit]
    simp [List.append_assoc]
  have hplain : ∀ u ∈ s, plainUnit u = true := List.all_eq_true.mp hs
  refine ⟨?_, ?_, ?_, ?_, ?_⟩
  · simp only [jsonStringifyData, isBytes, List.all_append, Bool.and_eq_true]
    refine ⟨⟨by decide, ?_⟩, by decide⟩
    simp only [List.all_eq_true, decide_eq_true_eq]
    intro u hu
    exact (plainUnit_facts u (hplain u hu)).1
  · rw [hsplit]; rfl
  · rw [hconcat, List.getLast?_concat]
  · rw [hsplit]
    have hlen8 : (js "\"data\":\"").length = 8 := by decide
    simp [List.length_append, hlen8]
    omega
  · rw [hsplit]
    have hT : (js "\"data\":\"" ++ s ++ ([34] ++ [125])) =
        (js "\"data\":\"" ++ s ++ [34]) ++ [125] := by simp [List.append_assoc]
    simp only [List.drop_succ_cons, List.drop_zero]
    rw [hT, List.dropLast_concat]
    simp only [List.all_append, Bool.and_eq_true]
    refine ⟨⟨by decide, ?_⟩, by decide⟩
    simp only [List.all_eq_true, decide_eq_true_eq]
    intro u hu
    exact (plainUnit_facts u (hplain u hu)).2

end FramingLemmas

section ConcreteProviders

/-- A concrete provider used to instantiate the abstract contracts in
witnesses: RSA is the identity on byte blobs, the symmetric cipher
appends one byte, the digest is constant, and btoa and atob are the
hexadecimal codec (whose output is inside the base64 alphabet and
padding-free, so it satisfies the same interface contracts). -/
def hexProvider : Provider where
  available := true
  rsaEncrypt := fun _ m => .ok m
  rsaDecrypt := fun _ c => .ok c
  importRsaPub := fun _ => .ok 1
  importRsaPriv := fun _ => .ok 2
  aesImportKey := fun b => .ok b
  aesEncrypt := fun _ _ _ d => .ok (d ++ [0])
  aesDecrypt := fun _ _ _ c => .ok c.dropLast
  digest := fun _ => List.replicate 32 1
  btoa := fun s => BufferTools.toHex (BufferTools.fromAscii s)
  atob := fun s =>
    match BufferTools.fromHex s with
    | some b => .ok (BufferTools.toAscii b)
    | none => .error ⟨"InvalidCharacterError", "atob"⟩

/-- A provider whose decryption primitives fail with OperationError, as
the Web Crypto implementations do on an authentication failure or a
mismatched key. -/
def opFailProvider : Provider :=
  { hexProvider with
    rsaDecrypt := fun _ _ => .error ⟨"OperationError", "decrypt"⟩
    aesDecrypt := fun _ _ _ _ => .error ⟨"OperationError", "decrypt"⟩ }

/-- A provider with the real base64 codec and a constant digest, used
to evaluate the password-hashing functions on concrete inputs. -/
def b64Provider : Provider :=
  { hexProvider with
    btoa := fun s => btoaJS (BufferTools.fromAscii s)
    atob := atobJS }

/-- A provider whose RSA public key import fails and whose symmetric
decryption reports an authentication failure, modelling a wrong
password or corrupted key material. -/
def importFailProvider : Provider :=
  { hexProvider with
    importRsaPub := fun _ => .error ⟨"DataError", "import"⟩
    aesDecrypt := fun _ _ _ _ => .error ⟨"OperationError", "decrypt"⟩ }

/-- A provider whose RSA decryption reports an authentication failure
for one specific private key and succeeds otherwise, used to exercise
both sides of the catch handler with a single provider. -/
def mixedProvider : Provider :=
  { hexProvider with
    rsaDecrypt := fun k c =>
      if k = 9 then .error ⟨"OperationError", "decrypt"⟩ else .ok c }

theorem mem_hexDigits_safe :
    ∀ u ∈ BufferTools.hexDigits, u ≠ 36 ∧ ¬ (u ∈ lineTerminators) ∧ u ≠ 61 := by
  decide

theorem hexProvider_atobBtoa : AtobBtoa hexProvider := by
  intro b hb
  show (match BufferTools.fromHex (BufferTools.toHex (BufferTools.fromAscii b)) with
    | some c => Except.ok (BufferTools.toAscii c)
    | none => (Except.error (JsError.mk "InvalidCharacterError" "atob") : Except JsError JSStr))
    = .ok (BufferTools.toAscii b)
  rw [show BufferTools.fromAscii b = b from fromAscii_of_isBytes b hb]
  rw [fromHex_toHex b hb]

theorem hexProvider_tagSafe : BtoaTagSafe hexProvider := by
  intro s
  constructor
  · intro u hu
    have hmem : u ∈ BufferTools.hexDigits :=
      toHex_units (BufferTools.fromAscii s) (isBytes_fromAscii s) u hu
    exact ⟨(mem_hexDigits_safe u hmem).1, (mem_hexDigits_safe u hmem).2.1⟩
  · intro hne
    show BufferTools.toHex (BufferTools.fromAscii s) ≠ []
    intro hcon
    have := toHex_length (BufferTools.fromAscii s)
    rw [hcon] at this
    simp only [List.length_nil, BufferTools.fromAscii, List.length_map] at this
    exact hne (List.eq_nil_of_length_eq_zero (by omega))

theorem hexProvider_strippable : BtoaStrippable hexProvider := by
  intro b hb hne
  have hunits : ∀ u ∈ BufferTools.toHex b, u ∈ BufferTools.hexDigits :=
    toHex_units b hb
  have hbody : hexProvider.btoa (BufferTools.toAscii b) = BufferTools.toHex b := by
    show BufferTools.toHex (BufferTools.fromAscii b) = BufferTools.toHex b
    rw [fromAscii_of_isBytes b hb]
  have hne2 : BufferTools.toHex b ≠ [] := by
    intro hcon
    have := toHex_length b
    rw [hcon] at this
    exact hne (List.eq_nil_of_length_eq_zero (by simpa using this.symm))
  refine ⟨BufferTools.toHex b, ?_, ?_, hne2, ?_⟩
  · rw [hbody]
    exact stripPadding_no61 _ (fun x hx => (mem_hexDigits_safe x (hunits x hx)).2.2) hne2
  · show (match BufferTools.fromHex (BufferTools.toHex b) with
      | some c => Except.ok (BufferTools.toAscii c)
      | none => (Except.error (JsError.mk "InvalidCharacterError" "atob") : Except JsError JSStr))
      = .ok (BufferTools.toAscii b)
    rw [fromHex_toHex b hb]
  · exact fun u hu => (mem_hexDigits_safe u (hunits u hu)).1

theorem hexProvider_digest : DigestGood hexProvider := by
  intro x
  refine ⟨?_, ?_⟩
  · show isBytes (List.replicate 32 1) = true
    decide
  · show List.replicate 32 1 ≠ ([] : Bytes)
    decide

theorem hexProvider_importKey : ImportKeyRaw hexProvider :=
  fun _ _ => rfl

theorem hexProvider_sym (sAlgo : SAlgoName) : SymCipherGood hexProvider sAlgo := by
  intro iv key d hd
  refine ⟨d ++ [0], rfl, ?_, by simp, ?_⟩
  · simp only [isBytes, List.all_append, Bool.and_eq_true] at hd ⊢
    exact ⟨hd, by decide⟩
  · simp [hexProvider, List.dropLast_concat]

theorem hexProvider_rsa (pub priv : Nat) : RsaPairGood hexProvider pub priv :=
  fun m hm => ⟨m, rfl, hm, rfl⟩

end ConcreteProviders

section Claims

/-- C9: in every session state, hasKeyPair implies hasPublicKey: a
private key is only reported accessible when the public key handle and
its string export are present as well, so no state observable through
these predicates has a private key without a public one. -/
theorem hasKeyPair_implies_hasPublicKey (s : CryptoState) (h : s.hasKeyPair = true) :
    s.hasPublicKey = true := by
  simp only [CryptoState.hasKeyPair, Bool.and_eq_true] at h
  simp only [CryptoState.hasPublicKey, Bool.and_eq_true]
  exact ⟨h.1.1, h.1.2⟩

theorem hasKeyPair_implies_hasPublicKey_witness :
    CryptoState.hasKeyPair ⟨some 1, some 2, some (js "key"), none⟩ = true ∧
    CryptoState.hasPublicKey ⟨some 1, some 2, some (js "key"), none⟩ = true :=
  ⟨by decide, hasKeyPair_implies_hasPublicKey ⟨some 1, some 2, some (js "key"), none⟩ (by decide)⟩

/-- C7: on a well-formed hash string with hex encoding, queryPasswordSalt
does not return the salt re-encoded as base64: it misinterprets the
hexadecimal salt component as base64, decodes it with atob, and returns
the hexadecimal image of that misreading.  For the salt ffff (bytes 255
255) the correct base64 re-encoding is the slash-slash-eight-equals
string produced by the node-side implementation, but the function
returns 7df7df. -/
theorem queryPasswordSalt_hex_misencodes :
    queryPasswordSalt atobJS (js "$ceph1$hex$ffff$aa") = .ok (some (js "7df7df")) ∧
    BufferTools.fromHex (js "ffff") = some [255, 255] ∧
    btoaJS [255, 255] = js "//8=" ∧
    js "7df7df" ≠ js "//8=" := by
  refine ⟨by rfl, by decide, by decide, by decide⟩

/-- C4 counterexample: encryptData with version 1 does not produce the
bare IV-plus-payload hexadecimal form: its output starts with the tag
one-dollar, and the dollar sign is not a hexadecimal digit, so the
output cannot consist of the two hexadecimal components alone. -/
theorem encryptData_version1_not_bare :
    (Crypto.encryptData hexProvider (js "a") (js "p") 1 (fun _ => 0) 0 0 0 (fun _ => 65)).map
      (fun out => out.take 2) = .ok (js "1$") ∧
    ¬ (36 ∈ BufferTools.hexDigits) :=
  ⟨by rfl, by decide⟩

/-- C4 amended: the string produced by encryptData has the form
version-dollar-ivHex-payloadHex for every supported version, including
version 1, and decryptData treats an input without a recognized
numeric version tag as legacy version 1. -/
theorem encryptData_always_tagged_and_legacy_default (P : Provider)
    (parseData : Bytes → Except JsError DVal)
    (dataString password legacyData legacyPw : JSStr) (version : Nat)
    (ivRand : Nat → Nat) (r0 r1 r2 : Nat) (noise : Nat → Nat)
    (sAlgo : SAlgoName) (ivBytes : Nat) (cipher : Bytes)
    (hpw : password ≠ []) (hav : P.available = true)
    (hv : versionAlgo version = some (sAlgo, ivBytes))
    (himp : P.aesImportKey (deriveKey password) = .ok (deriveKey password))
    (henc : P.aesEncrypt sAlgo ((List.range ivBytes).map (fun i => ivRand i % 256))
      (deriveKey password)
      (BufferTools.fromObject (jsonStringifyData dataString) true r0 r1 r2 noise) = .ok cipher)
    (hlne : legacyData ≠ []) (hlpw : legacyPw ≠ [])
    (hltag : parseVersionTag legacyData = none) :
    Crypto.encryptData P dataString password version ivRand r0 r1 r2 noise =
      .ok (js (toString version) ++ [36] ++
        BufferTools.toHex ((List.range ivBytes).map (fun i => ivRand i % 256)) ++
        BufferTools.toHex cipher) ∧
    Crypto.decryptData P parseData legacyData legacyPw =
      Crypto.decryptDataCore P parseData 1 legacyData legacyPw := by
  constructor
  · simp only [Crypto.encryptData, hpw, hav, hv, himp, henc]
    simp
  · simp only [Crypto.decryptData, hltag]
    simp [hlne, hlpw, hav]

theorem encryptData_always_tagged_witness :
    Crypto.encryptData hexProvider (js "a") (js "p") 1 (fun _ => 0) 0 0 0 (fun _ => 65) =
      .ok (js (toString 1) ++ [36] ++
        BufferTools.toHex ((List.range 16).map (fun i => (fun _ => 0) i % 256)) ++
        BufferTools.toHex
          (BufferTools.fromObject (jsonStringifyData (js "a")) true 0 0 0 (fun _ => 65) ++ [0])) ∧
    Crypto.decryptData hexProvider (fun _ => .ok .other) (js "00") (js "p") =
      Crypto.decryptDataCore hexProvider (fun _ => .ok .other) 1 (js "00") (js "p") :=
  encryptData_always_tagged_and_legacy_default hexProvider (fun _ => .ok .other)
    (js "a") (js "p") (js "00") (js "p") 1 (fun _ => 0) 0 0 0 (fun _ => 65)
    SAlgoName.aesCbc 16
    (BufferTools.fromObject (jsonStringifyData (js "a")) true 0 0 0 (fun _ => 65) ++ [0])
    (by decide) rfl rfl rfl rfl (by decide) (by decide) rfl

/-- C3 counterexample: an input with the unrecognized numeric version
tag three rejects with Invalid arguments even though the arguments are
nonempty and the provider is available, contradicting the claim that
only missing or empty arguments or an unavailable provider reject and
that every malformed input resolves to null. -/
theorem decryptData_unknownVersion_rejects :
    js "3$00" ≠ [] ∧ js "p" ≠ [] ∧ hexProvider.available = true ∧
    Crypto.decryptData hexProvider (fun _ => .ok .other) (js "3$00") (js "p") =
      .error ⟨"Error", "Crypto: Invalid arguments"⟩ :=
  ⟨by decide, by decide, rfl, by rfl⟩

/-- The version resolution of decryptData: either there is no tag and
the legacy version 1 applies to the whole input, or the input splits
into a tag and a payload. -/
def VersionResolves (encryptedData : JSStr) (version : Nat) (data : JSStr) : Prop :=
  (parseVersionTag encryptedData = none ∧ version = 1 ∧ data = encryptedData) ∨
    parseVersionTag encryptedData = some (version, data)

theorem decryptData_eq_core (P : Provider) (parseData : Bytes → Except JsError DVal)
    (encryptedData password : JSStr) (version : Nat) (data : JSStr)
    (hne : encryptedData ≠ []) (hpw : password ≠ []) (hav : P.available = true)
    (hres : VersionResolves encryptedData version data) :
    Crypto.decryptData P parseData encryptedData password =
      Crypto.decryptDataCore P parseData version data password := by
  simp only [Crypto.decryptData]
  rw [if_neg (by simp [hne, hpw]), if_neg (by simp [hav])]
  rcases hres with ⟨hpt, rfl, rfl⟩ | hpt
  · rw [hpt]
  · rw [hpt]

/-- C3 amended: decryptData resolves with null whenever the
catch-protected chain fails to produce an object with a string data
field, making a wrong password indistinguishable from corrupted
ciphertext; however, malformed inputs outside the chain are not
absorbed: an input carrying an unrecognized numeric version tag is
rejected with Invalid arguments, and an input whose IV section is not
valid hexadecimal raises the FormatError of fromHex, in addition to
the rejections for missing or empty arguments and for an unavailable
provider. -/
theorem decryptData_null_on_chain_failure (P : Provider)
    (parseData : Bytes → Except JsError DVal)
    (encryptedData password badVersionData hexBadData : JSStr)
    (version : Nat) (data : JSStr) (sAlgo : SAlgoName) (ivBytes : Nat)
    (iVector encryptedBuffer : Bytes)
    (badVersion : Nat) (badData : JSStr) (xversion : Nat) (xdata : JSStr)
    (xAlgo : SAlgoName) (xIvBytes : Nat)
    (hne : encryptedData ≠ []) (hpw : password ≠ []) (hav : P.available = true)
    (hres : VersionResolves encryptedData version data)
    (halgo : versionAlgo version = some (sAlgo, ivBytes))
    (hiv : BufferTools.fromHex (data.take (ivBytes * 2)) = some iVector)
    (hbuf : BufferTools.fromHex (data.drop (ivBytes * 2)) = some encryptedBuffer)
    (hfail : ∀ s, Crypto.decryptDataChain P parseData sAlgo iVector (deriveKey password)
      encryptedBuffer ≠ .ok (.dataStr s))
    (hbne : badVersionData ≠ [])
    (hbtag : parseVersionTag badVersionData = some (badVersion, badData))
    (hbv : versionAlgo badVersion = none)
    (hxne : hexBadData ≠ [])
    (hxres : VersionResolves hexBadData xversion xdata)
    (hxalgo : versionAlgo xversion = some (xAlgo, xIvBytes))
    (hxiv : BufferTools.fromHex (xdata.take (xIvBytes * 2)) = none) :
    Crypto.decryptData P parseData encryptedData password = .ok none ∧
    Crypto.decryptData P parseData badVersionData password =
      .error ⟨"Error", "Crypto: Invalid arguments"⟩ ∧
    Crypto.decryptData P parseData hexBadData password =
      .error ⟨"Error", "BufferTools.fromHex(): Invalid arguments"⟩ := by
  refine ⟨?_, ?_, ?_⟩
  · rw [decryptData_eq_core P parseData encryptedData password version data hne hpw hav hres]
    simp only [Crypto.decryptDataCore, halgo, hiv, hbuf]
    cases hc : Crypto.decryptDataChain P parseData sAlgo iVector (deriveKey password)
      encryptedBuffer with
    | error e => simp
    | ok dv =>
      cases dv with
      | dataStr s => exact absurd hc (hfail s)
      | other => simp
  · rw [decryptData_eq_core P parseData badVersionData password badVersion badData hbne hpw hav
      (Or.inr hbtag)]
    simp only [Crypto.decryptDataCore, hbv]
  · rw [decryptData_eq_core P parseData hexBadData password xversion xdata hxne hpw hav hxres]
    simp only [Crypto.decryptDataCore, hxalgo, hxiv]

theorem decryptData_null_on_chain_failure_witness :
    Crypto.decryptData opFailProvider (fun _ => .ok .other)
      (js "2$0000000000000000000000000000") (js "p") = .ok none ∧
    Crypto.decryptData opFailProvider (fun _ => .ok .other) (js "3$00") (js "p") =
      .error ⟨"Error", "Crypto: Invalid arguments"⟩ ∧
    Crypto.decryptData opFailProvider (fun _ => .ok .other) (js "zz") (js "p") =
      .error ⟨"Error", "BufferTools.fromHex(): Invalid arguments"⟩ :=
  decryptData_null_on_chain_failure opFailProvider (fun _ => .ok .other)
    (js "2$0000000000000000000000000000") (js "p") (js "3$00") (js "zz")
    2 (js "0000000000000000000000000000") SAlgoName.aesGcm 12
    (List.replicate 12 0) [0, 0] 3 (js "00") 1 (js "zz") SAlgoName.aesCbc 16
    (by decide) (by decide) rfl (Or.inr rfl) rfl rfl rfl
    (fun s h => Except.noConfusion h)
    (by decide) rfl rfl (by decide) (Or.inl ⟨rfl, rfl, rfl⟩) rfl rfl

/-- C5 counterexample: a failing importPrivateKey call (wrong export
password, the symmetric decryption reporting an authentication
failure) resolves with false but leaves the four session fields exactly
as they were, here all non-null, contradicting the claim that every
failed load or import leaves all four fields null. -/
theorem importPrivateKey_failure_keeps_state :
    Crypto.importPrivateKey opFailProvider (fun _ => .ok .other)
      (fun _ => .error ⟨"SyntaxError", "parse"⟩) true (.ok ())
      ⟨some 7, some 8, some (js "pub"), some (js "priv")⟩
      (js "$ceph1-priv$hex$2$0000000000000000000000000000") (js "pw") =
      (.ok false, ⟨some 7, some 8, some (js "pub"), some (js "priv")⟩) ∧
    (⟨some 7, some 8, some (js "pub"), some (js "priv")⟩ : CryptoState).privateKey ≠ none :=
  ⟨by rfl, by decide⟩

/-- C5 amended: loadKeyPair and importPublicKey clear all four session
fields before doing anything fallible, so a load that finds nothing, a
failed store read or a failed public key import leaves all four fields
null; importPrivateKey, by contrast, assigns the fields only after
complete success: when it fails (resolving false on a wrong export
password, or rejecting), the fields keep their previous values, which
are null only if the session was fresh. -/
theorem failed_load_import_state (P : Provider) (parseData : Bytes → Except JsError DVal)
    (parseJwk : JSStr → Except JsError Jwk) (dbReady : Bool)
    (writeRes : Except JsError Unit) (st1 st2 st3 : CryptoState)
    (readErr impErr : JsError) (pubKeyString pKeyString exportPassword : JSStr)
    (hav : P.available = true) (hdb : dbReady = true)
    (hfne : pubKeyString ≠ []) (hftag : pubKeyString.take 16 = js "$ceph1-publ$jwk$")
    (himp : P.importRsaPub (pubKeyString.drop 16) = .error impErr)
    (hpfmt : pKeyString.take 16 = js "$ceph1-priv$hex$") (hpw : exportPassword ≠ [])
    (hdec : Crypto.decryptData P parseData (pKeyString.drop 16) exportPassword = .ok none) :
    Crypto.loadKeyPair P dbReady (.ok none) st1 = (.ok (), CryptoState.cleared) ∧
    Crypto.loadKeyPair P dbReady (.error readErr) st1 = (.error readErr, CryptoState.cleared) ∧
    Crypto.importPublicKey P st2 pubKeyString = (.error impErr, CryptoState.cleared) ∧
    Crypto.importPrivateKey P parseData parseJwk dbReady writeRes st3
      pKeyString exportPassword = (.ok false, st3) := by
  refine ⟨?_, ?_, ?_, ?_⟩
  · simp [Crypto.loadKeyPair, hav, hdb]
  · simp [Crypto.loadKeyPair, hav, hdb]
  · simp only [Crypto.importPublicKey, hftag, himp]
    rw [if_neg (by simp [hfne, hftag]), if_neg (by simp [hav])]
  · simp only [Crypto.importPrivateKey]
    rw [if_neg (by simp [hpfmt, hpw]), if_neg (by simp [hav, hdb])]
    simp [hdec]

theorem failed_load_import_state_witness :
    Crypto.loadKeyPair importFailProvider true (.ok none)
      ⟨some 7, some 8, some (js "pub"), some (js "priv")⟩ = (.ok (), CryptoState.cleared) ∧
    Crypto.loadKeyPair importFailProvider true (.error ⟨"Error", "read"⟩)
      ⟨some 7, some 8, some (js "pub"), some (js "priv")⟩ =
      (.error ⟨"Error", "read"⟩, CryptoState.cleared) ∧
    Crypto.importPublicKey importFailProvider
      ⟨some 7, some 8, some (js "pub"), some (js "priv")⟩ (js "$ceph1-publ$jwk$x") =
      (.error ⟨"DataError", "import"⟩, CryptoState.cleared) ∧
    Crypto.importPrivateKey importFailProvider (fun _ => .ok .other)
      (fun _ => .error ⟨"SyntaxError", "parse"⟩) true (.ok ())
      ⟨some 7, some 8, some (js "pub"), some (js "priv")⟩
      (js "$ceph1-priv$hex$2$0000000000000000000000000000") (js "pw") =
      (.ok false, ⟨some 7, some 8, some (js "pub"), some (js "priv")⟩) :=
  failed_load_import_state importFailProvider (fun _ => .ok .other)
    (fun _ => .error ⟨"SyntaxError", "parse"⟩) true (.ok ())
    ⟨some 7, some 8, some (js "pub"), some (js "priv")⟩
    ⟨some 7, some 8, some (js "pub"), some (js "priv")⟩
    ⟨some 7, some 8, some (js "pub"), some (js "priv")⟩
    ⟨"Error", "read"⟩ ⟨"DataError", "import"⟩
    (js "$ceph1-publ$jwk$x") (js "$ceph1-priv$hex$2$0000000000000000000000000000") (js "pw")
    rfl rfl (by decide) (by decide) rfl (by decide) (by decide) (by rfl)

/-- C8 counterexample: the roundtrip fails for the empty object, whose
JSON serialization is an opening brace immediately followed by a
closing brace: the region expression of toObject demands at least one
character between the braces, so toObject raises a FormatError on the
fromObject image of that serialization, both without noise and with
noise, even though the JSON parser itself (modelled by the parse
argument) accepts the body. -/
theorem toObject_fromObject_empty_object_fails :
    BufferTools.toObject
      (fun b => if b = js "\x7b\x7d" then Except.ok () else .error ⟨"SyntaxError", "parse"⟩)
      (BufferTools.fromObject (js "\x7b\x7d") false 0 0 0 (fun _ => 0)) =
      .error ⟨"Error", "BufferTools.toObject(): Invalid arguments"⟩ ∧
    BufferTools.toObject
      (fun b => if b = js "\x7b\x7d" then Except.ok () else .error ⟨"SyntaxError", "parse"⟩)
      (BufferTools.fromObject (js "\x7b\x7d") true 0 0 65 (fun _ => 66)) =
      .error ⟨"Error", "BufferTools.toObject(): Invalid arguments"⟩ :=
  ⟨by rfl, by rfl⟩

/-- C8 amended: the noise framing places between 15 and 64 random
bytes inclusive on each side of the JSON body; every noise byte equal
to an opening brace, a closing brace or zero is replaced by a per-call
filler byte which is the third random configuration byte itself —
guaranteed not to be one of those three values, and equal to the space
character exactly when that randomly drawn byte was itself reserved —
so that for every object whose JSON serialization starts with an
opening brace, ends with a closing brace and has at least one
character in between (which excludes the empty object), the body can
be isolated and toObject inverts fromObject with and without noise. -/
theorem fromObject_noise_shape_and_roundtrip {Obj : Type}
    (parse : Bytes → Except JsError Obj) (stringify : Obj → JSStr) (o : Obj)
    (addNoise : Bool) (r0 r1 r2 : Nat) (noise : Nat → Nat)
    (hg : GoodBody (stringify o)) (hp : parse (stringify o) = .ok o) :
    15 ≤ (BufferTools.noisePre r0 r1 r2 noise).length ∧
    (BufferTools.noisePre r0 r1 r2 noise).length ≤ 64 ∧
    15 ≤ (BufferTools.noisePost r0 r1 r2 noise).length ∧
    (BufferTools.noisePost r0 r1 r2 noise).length ≤ 64 ∧
    ((BufferTools.noisePre r0 r1 r2 noise).all
      (fun x => ¬ (x ∈ BufferTools.nonNoiseCharacters))) = true ∧
    ((BufferTools.noisePost r0 r1 r2 noise).all
      (fun x => ¬ (x ∈ BufferTools.nonNoiseCharacters))) = true ∧
    (¬ ((r2 % 256) ∈ BufferTools.nonNoiseCharacters) →
      BufferTools.noiseFiller r2 = r2 % 256) ∧
    ((r2 % 256) ∈ BufferTools.nonNoiseCharacters → BufferTools.noiseFiller r2 = 32) ∧
    BufferTools.fromObject (stringify o) true r0 r1 r2 noise =
      BufferTools.noisePre r0 r1 r2 noise ++ stringify o ++
        BufferTools.noisePost r0 r1 r2 noise ∧
    BufferTools.toObject parse
      (BufferTools.fromObject (stringify o) addNoise r0 r1 r2 noise) = .ok o := by
  have hbytes := hg.1
  refine ⟨?_, ?_, ?_, ?_, ?_, ?_, ?_, ?_, ?_, ?_⟩
  · rw [noisePre_length]; exact (noiseAmount_bounds r0).1
  · rw [noisePre_length]; exact (noiseAmount_bounds r0).2
  · rw [noisePost_length]; exact (noiseAmount_bounds r1).1
  · rw [noisePost_length]; exact (noiseAmount_bounds r1).2
  · rw [List.all_eq_true]
    intro x hx
    simpa using noisePre_safe r0 r1 r2 noise x hx
  · rw [List.all_eq_true]
    intro x hx
    simpa using noisePost_safe r0 r1 r2 noise x hx
  · intro hc
    unfold BufferTools.noiseFiller
    rw [if_neg hc]
  · intro hc
    unfold BufferTools.noiseFiller
    rw [if_pos hc]
  · show BufferTools.addNoiseFraming (BufferTools.fromAscii (stringify o)) r0 r1 r2 noise = _
    rw [fromAscii_of_isBytes _ hbytes]
    rfl
  · exact toObject_fromObject parse (stringify o) o addNoise r0 r1 r2 noise hg hp

theorem fromObject_noise_shape_witness :
    15 ≤ (BufferTools.noisePre 0 0 65 (fun _ => 66)).length ∧
    (BufferTools.noisePre 0 0 65 (fun _ => 66)).length ≤ 64 ∧
    15 ≤ (BufferTools.noisePost 0 0 65 (fun _ => 66)).length ∧
    (BufferTools.noisePost 0 0 65 (fun _ => 66)).length ≤ 64 ∧
    ((BufferTools.noisePre 0 0 65 (fun _ => 66)).all
      (fun x => ¬ (x ∈ BufferTools.nonNoiseCharacters))) = true ∧
    ((BufferTools.noisePost 0 0 65 (fun _ => 66)).all
      (fun x => ¬ (x ∈ BufferTools.nonNoiseCharacters))) = true ∧
    (¬ ((65 % 256) ∈ BufferTools.nonNoiseCharacters) →
      BufferTools.noiseFiller 65 = 65 % 256) ∧
    ((65 % 256) ∈ BufferTools.nonNoiseCharacters → BufferTools.noiseFiller 65 = 32) ∧
    BufferTools.fromObject (js "\x7b0\x7d") true 0 0 65 (fun _ => 66) =
      BufferTools.noisePre 0 0 65 (fun _ => 66) ++ js "\x7b0\x7d" ++
        BufferTools.noisePost 0 0 65 (fun _ => 66) ∧
    BufferTools.toObject
      (fun b => if b = js "\x7b0\x7d" then Except.ok () else .error ⟨"SyntaxError", "parse"⟩)
      (BufferTools.fromObject (js "\x7b0\x7d") true 0 0 65 (fun _ => 66)) = .ok () :=
  fromObject_noise_shape_and_roundtrip
    (fun b => if b = js "\x7b0\x7d" then Except.ok () else .error ⟨"SyntaxError", "parse"⟩)
    (fun _ => js "\x7b0\x7d") () true 0 0 65 (fun _ => 66)
    ⟨by decide, by decide, by decide, by decide, by decide⟩ (by rfl)

/-- C6 counterexample: with the browser base64 codec, a freshly salted
base64 hash stores the 16-byte salt with its two padding equals signs,
while re-hashing with the salt component extracted from that very hash
string stores it padding-stripped, so the reproduced hash string is not
byte-for-byte equal to the original (they differ exactly in the salt
padding).  The digest is held fixed, so the discrepancy is purely in
the encoding layer and applies to SHA-256 as well. -/
theorem hashPassword_resalt_not_byte_identical :
    hashPassword b64Provider (js "a") none "base64" (fun _ => 0) =
      .ok (js "$ceph1$base64$AAAAAAAAAAAAAAAAAAAAAA==$AQEBAQEBAQEBAQEBAQEBAQEBAQEBAQEBAQEBAQEBAQE") ∧
    queryPasswordSalt b64Provider.atob
      (js "$ceph1$base64$AAAAAAAAAAAAAAAAAAAAAA==$AQEBAQEBAQEBAQEBAQEBAQEBAQEBAQEBAQEBAQEBAQE") =
      .ok (some (js "AAAAAAAAAAAAAAAAAAAAAA==")) ∧
    hashPassword b64Provider (js "a") (some (js "AAAAAAAAAAAAAAAAAAAAAA==")) "base64"
      (fun _ => 0) =
      .ok (js "$ceph1$base64$AAAAAAAAAAAAAAAAAAAAAA$AQEBAQEBAQEBAQEBAQEBAQEBAQEBAQEBAQEBAQEBAQE") ∧
    js "$ceph1$base64$AAAAAAAAAAAAAAAAAAAAAA==$AQEBAQEBAQEBAQEBAQEBAQEBAQEBAQEBAQEBAQEBAQE" ≠
      js "$ceph1$base64$AAAAAAAAAAAAAAAAAAAAAA$AQEBAQEBAQEBAQEBAQEBAQEBAQEBAQEBAQEBAQEBAQE" :=
  ⟨by rfl, by rfl, by rfl, by decide⟩

/-- The body a successful padding strip returns, the string itself
otherwise: used to speak about the stored hash components without an
existential. -/
def stripBodyOf (s : JSStr) : JSStr := (stripPadding s).getD s

theorem parseHashString_build (enc salt hashC : JSStr)
    (hence : enc ≠ []) (henc : ∀ x ∈ enc, x ≠ 36)
    (hsne : salt ≠ []) (hs : ∀ x ∈ salt, x ≠ 36)
    (hhne : hashC ≠ []) (hh : ∀ x ∈ hashC, x ≠ 36) :
    parseHashString (js "$ceph1$" ++ enc ++ js "$" ++ salt ++ js "$" ++ hashC) =
      some (enc, salt, hashC) := by
  have h1 : js "$ceph1$" = 36 :: (js "ceph1" ++ [36]) := by decide
  have h2 : js "$" = [36] := by decide
  have hc : ∀ x ∈ js "ceph1", x ≠ 36 := by decide
  have hsplit : splitD (js "$ceph1$" ++ enc ++ js "$" ++ salt ++ js "$" ++ hashC) =
      [[], js "ceph1", enc, salt, hashC] := by
    rw [h1, h2]
    simp only [List.cons_append, List.append_assoc, List.singleton_append, List.nil_append]
    rw [splitD, if_pos rfl]
    rw [splitD_sep_append (js "ceph1") _ hc]
    rw [splitD_sep_append enc _ henc]
    rw [splitD_sep_append salt _ hs]
    rw [splitD_no_sep hashC hh]
  unfold parseHashString
  rw [hsplit]
  show (if ([] : JSStr) = [] ∧ js "ceph1" = js "ceph1" ∧ enc ≠ [] ∧ salt ≠ [] ∧ hashC ≠ []
    then some (enc, salt, hashC) else none) = some (enc, salt, hashC)
  rw [if_pos ⟨rfl, rfl, hence, hsne, hhne⟩]

theorem toHex_ne_nil (b : Bytes) (hb : b ≠ []) : BufferTools.toHex b ≠ [] := by
  intro h
  have hlen := congrArg List.length h
  rw [toHex_length] at hlen
  simp only [List.length_nil] at hlen
  exact hb (List.eq_nil_of_length_eq_zero (by omega))

theorem isBytes_randBytes (n : Nat) (f : Nat → Nat) :
    isBytes ((List.range n).map (fun i => f i % 256)) = true := by
  simp only [isBytes, List.all_eq_true]
  intro x hx
  obtain ⟨i, _, rfl⟩ := List.mem_map.mp hx
  simpa using Nat.mod_lt (f i) (by omega)

theorem randBytes_ne_nil (f : Nat → Nat) :
    (List.range 16).map (fun i => f i % 256) ≠ [] := by
  intro h
  have hlen := congrArg List.length h
  simp at hlen

theorem ceph1_append_ne_nil (X : JSStr) : js "$ceph1$" ++ X ≠ [] := by
  intro h
  have hlen := congrArg List.length h
  simp only [List.length_append, List.length_nil] at hlen
  have h7 : (js "$ceph1$").length = 7 := by decide
  omega

/-- C6 amended: for every nonempty password and both encodings, a
freshly salted hash verifies under checkPassword; re-hashing with the
extracted salt reproduces the hash string byte-for-byte for the hex
encoding; for base64, a fresh salt is stored with its padding while a
re-supplied salt is stored padding-stripped, so the re-hashed string
differs from the original exactly in the salt component's padding, and
both strings verify under checkPassword. -/
theorem hashPassword_checkPassword_roundtrip (P : Provider) (password : JSStr)
    (saltRand : Nat → Nat) (r : Bytes)
    (hp : password ≠ []) (hav : P.available = true)
    (hr : r = (List.range 16).map (fun i => saltRand i % 256))
    (hab : AtobBtoa P) (hts : BtoaTagSafe P) (hst : BtoaStrippable P) (hdg : DigestGood P) :
    hashPassword P password none "hex" saltRand =
      .ok (js "$ceph1$" ++ js "hex" ++ js "$" ++ BufferTools.toHex r ++ js "$" ++
        BufferTools.toHex
          (P.digest (BufferTools.fromAscii (password ++ BufferTools.toAscii r)))) ∧
    hashPassword P password (some (BufferTools.toHex r)) "hex" saltRand =
      .ok (js "$ceph1$" ++ js "hex" ++ js "$" ++ BufferTools.toHex r ++ js "$" ++
        BufferTools.toHex
          (P.digest (BufferTools.fromAscii (password ++ BufferTools.toAscii r)))) ∧
    checkPassword P password
      (js "$ceph1$" ++ js "hex" ++ js "$" ++ BufferTools.toHex r ++ js "$" ++
        BufferTools.toHex
          (P.digest (BufferTools.fromAscii (password ++ BufferTools.toAscii r)))) = .ok true ∧
    hashPassword P password none "base64" saltRand =
      .ok (js "$ceph1$" ++ js "base64" ++ js "$" ++ P.btoa (BufferTools.toAscii r) ++ js "$" ++
        stripBodyOf (P.btoa (BufferTools.toAscii
          (P.digest (BufferTools.fromAscii (password ++ BufferTools.toAscii r)))))) ∧
    hashPassword P password (some (P.btoa (BufferTools.toAscii r))) "base64" saltRand =
      .ok (js "$ceph1$" ++ js "base64" ++ js "$" ++
        stripBodyOf (P.btoa (BufferTools.toAscii r)) ++ js "$" ++
        stripBodyOf (P.btoa (BufferTools.toAscii
          (P.digest (BufferTools.fromAscii (password ++ BufferTools.toAscii r)))))) ∧
    checkPassword P password
      (js "$ceph1$" ++ js "base64" ++ js "$" ++ P.btoa (BufferTools.toAscii r) ++ js "$" ++
        stripBodyOf (P.btoa (BufferTools.toAscii
          (P.digest (BufferTools.fromAscii (password ++ BufferTools.toAscii r)))))) = .ok true ∧
    checkPassword P password
      (js "$ceph1$" ++ js "base64" ++ js "$" ++
        stripBodyOf (P.btoa (BufferTools.toAscii r)) ++ js "$" ++
        stripBodyOf (P.btoa (BufferTools.toAscii
          (P.digest (BufferTools.fromAscii (password ++ BufferTools.toAscii r)))))) = .ok true := by
  have hrb : isBytes r = true := hr ▸ isBytes_randBytes 16 saltRand
  have hrne : r ≠ [] := hr ▸ randBytes_ne_nil saltRand
  have hdb : isBytes (P.digest (BufferTools.fromAscii
      (password ++ BufferTools.toAscii r))) = true :=
    (hdg (BufferTools.fromAscii (password ++ BufferTools.toAscii r))).1
  have hdne : P.digest (BufferTools.fromAscii (password ++ BufferTools.toAscii r)) ≠ [] :=
    (hdg (BufferTools.fromAscii (password ++ BufferTools.toAscii r))).2
  have htne : BufferTools.toHex r ≠ [] := toHex_ne_nil r hrne
  have hdtne : BufferTools.toHex (P.digest (BufferTools.fromAscii
      (password ++ BufferTools.toAscii r))) ≠ [] := toHex_ne_nil _ hdne
  have hhx : ∀ x ∈ BufferTools.toHex r, x ≠ 36 :=
    fun x hx => (mem_hexDigits_safe x (toHex_units r hrb x hx)).1
  have hhd : ∀ x ∈ BufferTools.toHex (P.digest (BufferTools.fromAscii
      (password ++ BufferTools.toAscii r))), x ≠ 36 :=
    fun x hx => (mem_hexDigits_safe x (toHex_units _ hdb x hx)).1
  obtain ⟨hbody, hspD, hatobD, hbodyneD, hbody36D⟩ := hst _ hdb hdne
  obtain ⟨sbody, hspS, hatobS, hsbne, hsb36⟩ := hst r hrb hrne
  have hsbD : stripBodyOf (P.btoa (BufferTools.toAscii
      (P.digest (BufferTools.fromAscii (password ++ BufferTools.toAscii r))))) = hbody := by
    unfold stripBodyOf
    rw [hspD]
    rfl
  have hsbS : stripBodyOf (P.btoa (BufferTools.toAscii r)) = sbody := by
    unfold stripBodyOf
    rw [hspS]
    rfl
  have hbtoaNe : P.btoa (BufferTools.toAscii r) ≠ [] :=
    (hts (BufferTools.toAscii r)).2 hrne
  have hab2 : P.atob (P.btoa r) = Except.ok r := hab r hrb
  have hatobD2 : P.atob hbody =
      Except.ok (P.digest (BufferTools.fromAscii (password ++ r))) := hatobD
  have hatobS2 : P.atob sbody = Except.ok r := hatobS
  have hbtoa36 : ∀ x ∈ P.btoa (BufferTools.toAscii r), x ≠ 36 :=
    fun x hx => ((hts (BufferTools.toAscii r)).1 x hx).1
  refine ⟨?_, ?_, ?_, ?_, ?_, ?_, ?_⟩
  · simp only [hashPassword]
    rw [if_neg (by simp [hp]), if_neg (by simp [hav]), ← hr]
    rfl
  · simp only [hashPassword]
    rw [if_neg (by simp [hp, htne]), if_neg (by simp [hav])]
    rw [show BufferTools.fromHex (BufferTools.toHex r) = some r from fromHex_toHex r hrb]
    rfl
  · simp only [checkPassword]
    rw [if_neg (by simp [hp, hdtne]), if_neg (by simp [hav])]
    simp only [parseHashString_build (js "hex") (BufferTools.toHex r) _
      (by decide) (by decide) htne hhx hdtne hhd]
    rw [if_neg (by simp), if_neg (by decide)]
    simp [BufferTools.toAscii, fromHex_toHex r hrb,
      fromHex_toHex (P.digest (BufferTools.fromAscii (password ++ r))) hdb]
  · simp only [hashPassword]
    rw [if_neg (by simp [hp]), if_neg (by simp [hav]), ← hr, hspD, hsbD]
    simp
  · simp only [hashPassword]
    rw [if_neg (by simp [hp, hbtoaNe]), if_neg (by simp [hav]), hsbS, hsbD]
    rw [hab r hrb, hspS]
    simp [hspD]
  · simp only [checkPassword]
    rw [hsbD, if_neg (by simp [hp, hbodyneD]), if_neg (by simp [hav])]
    simp only [parseHashString_build (js "base64") (P.btoa (BufferTools.toAscii r)) hbody
      (by decide) (by decide) hbtoaNe hbtoa36 hbodyneD hbody36D]
    simp [hab2, hatobD2, BufferTools.toAscii]
  · simp only [checkPassword]
    rw [hsbD, hsbS, if_neg (by simp [hp, hbodyneD]), if_neg (by simp [hav])]
    simp only [parseHashString_build (js "base64") sbody hbody
      (by decide) (by decide) hsbne hsb36 hbodyneD hbody36D]
    simp [hatobS2, hatobD2, BufferTools.toAscii]

theorem hashPassword_checkPassword_roundtrip_witness :
    hashPassword hexProvider (js "a") none "hex" (fun _ => 0) =
      .ok (js "$ceph1$" ++ js "hex" ++ js "$" ++ BufferTools.toHex (List.replicate 16 0) ++
        js "$" ++ BufferTools.toHex (hexProvider.digest (BufferTools.fromAscii
          (js "a" ++ BufferTools.toAscii (List.replicate 16 0))))) ∧
    hashPassword hexProvider (js "a") (some (BufferTools.toHex (List.replicate 16 0))) "hex"
      (fun _ => 0) =
      .ok (js "$ceph1$" ++ js "hex" ++ js "$" ++ BufferTools.toHex (List.replicate 16 0) ++
        js "$" ++ BufferTools.toHex (hexProvider.digest (BufferTools.fromAscii
          (js "a" ++ BufferTools.toAscii (List.replicate 16 0))))) ∧
    checkPassword hexProvider (js "a")
      (js "$ceph1$" ++ js "hex" ++ js "$" ++ BufferTools.toHex (List.replicate 16 0) ++
        js "$" ++ BufferTools.toHex (hexProvider.digest (BufferTools.fromAscii
          (js "a" ++ BufferTools.toAscii (List.replicate 16 0))))) = .ok true ∧
    hashPassword hexProvider (js "a") none "base64" (fun _ => 0) =
      .ok (js "$ceph1$" ++ js "base64" ++ js "$" ++
        hexProvider.btoa (BufferTools.toAscii (List.replicate 16 0)) ++ js "$" ++
        stripBodyOf (hexProvider.btoa (BufferTools.toAscii (hexProvider.digest
          (BufferTools.fromAscii (js "a" ++ BufferTools.toAscii (List.replicate 16 0))))))) ∧
    hashPassword hexProvider (js "a")
      (some (hexProvider.btoa (BufferTools.toAscii (List.replicate 16 0)))) "base64"
      (fun _ => 0) =
      .ok (js "$ceph1$" ++ js "base64" ++ js "$" ++
        stripBodyOf (hexProvider.btoa (BufferTools.toAscii (List.replicate 16 0))) ++ js "$" ++
        stripBodyOf (hexProvider.btoa (BufferTools.toAscii (hexProvider.digest
          (BufferTools.fromAscii (js "a" ++ BufferTools.toAscii (List.replicate 16 0))))))) ∧
    checkPassword hexProvider (js "a")
      (js "$ceph1$" ++ js "base64" ++ js "$" ++
        hexProvider.btoa (BufferTools.toAscii (List.replicate 16 0)) ++ js "$" ++
        stripBodyOf (hexProvider.btoa (BufferTools.toAscii (hexProvider.digest
          (BufferTools.fromAscii (js "a" ++ BufferTools.toAscii (List.replicate 16 0))))))) =
      .ok true ∧
    checkPassword hexProvider (js "a")
      (js "$ceph1$" ++ js "base64" ++ js "$" ++
        stripBodyOf (hexProvider.btoa (BufferTools.toAscii (List.replicate 16 0))) ++ js "$" ++
        stripBodyOf (hexProvider.btoa (BufferTools.toAscii (hexProvider.digest
          (BufferTools.fromAscii (js "a" ++ BufferTools.toAscii (List.replicate 16 0))))))) =
      .ok true :=
  hashPassword_checkPassword_roundtrip hexProvider (js "a") (fun _ => 0)
    (List.replicate 16 0) (by decide) rfl (by decide)
    hexProvider_atobBtoa hexProvider_tagSafe hexProvider_strippable hexProvider_digest

theorem isBytes_deriveKey (password : JSStr) : isBytes (deriveKey password) = true := by
  simp only [deriveKey, isBytes, List.all_eq_true]
  intro x hx
  obtain ⟨i, _, rfl⟩ := List.mem_map.mp hx
  simpa using Nat.mod_lt _ (show 0 < 256 by omega)

theorem isBytes_noiseBuf (r0 r1 r2 : Nat) (noise : Nat → Nat) :
    isBytes (BufferTools.noiseBuf r0 r1 r2 noise) = true := by
  simp only [isBytes, List.all_eq_true]
  intro x hx
  unfold BufferTools.noiseBuf at hx
  obtain ⟨i, _, rfl⟩ := List.mem_map.mp hx
  by_cases hc : (noise i % 256) ∈ BufferTools.nonNoiseCharacters
  · rw [if_pos hc]
    unfold BufferTools.noiseFiller
    by_cases hc2 : (r2 % 256) ∈ BufferTools.nonNoiseCharacters
    · rw [if_pos hc2]; simp
    · rw [if_neg hc2]; simpa using Nat.mod_lt _ (show 0 < 256 by omega)
  · rw [if_neg hc]; simpa using Nat.mod_lt _ (show 0 < 256 by omega)

theorem isBytes_fromObject (s : JSStr) (addNoise : Bool) (r0 r1 r2 : Nat)
    (noise : Nat → Nat) :
    isBytes (BufferTools.fromObject s addNoise r0 r1 r2 noise) = true := by
  cases addNoise with
  | false => exact isBytes_fromAscii s
  | true =>
    show isBytes (BufferTools.addNoiseFraming (BufferTools.fromAscii s) r0 r1 r2 noise) = true
    unfold BufferTools.addNoiseFraming
    simp only [isBytes, List.all_append, Bool.and_eq_true]
    refine ⟨⟨?_, isBytes_fromAscii s⟩, ?_⟩
    · simp only [List.all_eq_true]
      intro x hx
      exact List.all_eq_true.mp (isBytes_noiseBuf r0 r1 r2 noise) x
        (List.take_subset _ _ hx)
    · simp only [List.all_eq_true]
      intro x hx
      exact List.all_eq_true.mp (isBytes_noiseBuf r0 r1 r2 noise) x
        (List.drop_subset _ _ hx)

theorem toHex_no_lineTerminators (b : Bytes) (hb : isBytes b = true) :
    (BufferTools.toHex b).all (fun c => ¬ (c ∈ lineTerminators)) = true := by
  rw [List.all_eq_true]
  intro x hx
  simpa using (mem_hexDigits_safe x (toHex_units b hb x hx)).2.1

theorem append_toHex_ne_nil (a b : Bytes) (hb : b ≠ []) :
    BufferTools.toHex a ++ BufferTools.toHex b ≠ [] := by
  intro h
  rcases List.append_eq_nil.mp h with ⟨_, h2⟩
  exact toHex_ne_nil b hb h2

theorem parseVersionTag_single (d : Nat) (rest : JSStr) (hd : isDigitUnit d = true)
    (hne : rest ≠ []) (hrest : rest.all (fun c => ¬ (c ∈ lineTerminators)) = true) :
    parseVersionTag (d :: 36 :: rest) = some (d - 48, rest) := by
  unfold parseVersionTag
  have ht : (d :: 36 :: rest).takeWhile isDigitUnit = [d] := by
    rw [List.takeWhile_cons, if_pos hd, List.takeWhile_cons,
      if_neg (by simp [isDigitUnit]), ]
  rw [ht]
  simp only [List.length_cons, List.length_nil, List.drop_succ_cons, List.drop_zero]
  rw [if_pos ⟨by simp, hne, hrest⟩]
  show some (digitsToNat [d], rest) = some (d - 48, rest)
  simp [digitsToNat]

theorem take_drop_toHex (a b : Bytes) (n : Nat) (hn : a.length = n) :
    (BufferTools.toHex a ++ BufferTools.toHex b).take (n * 2) = BufferTools.toHex a ∧
    (BufferTools.toHex a ++ BufferTools.toHex b).drop (n * 2) = BufferTools.toHex b := by
  have hl : (BufferTools.toHex a).length = n * 2 := by
    rw [toHex_length, hn]
    ring
  constructor
  · rw [← hl, List.take_left]
  · rw [← hl, List.drop_left]

/-- A tagged hexadecimal envelope exactly as produced by encryptData is
parsed back and decrypted by decryptData using only the chain result. -/
theorem decryptData_on_tagged_hex (P : Provider) (parseData : Bytes → Except JsError DVal)
    (p2 s : JSStr) (version digit : Nat) (sAlgo : SAlgoName) (ivBytes : Nat)
    (iv c : Bytes)
    (hdigit : js (toString version) = [digit]) (hdig : isDigitUnit digit = true)
    (hdv : digit - 48 = version)
    (hv : versionAlgo version = some (sAlgo, ivBytes))
    (hp2 : p2 ≠ []) (hav : P.available = true)
    (hivlen : iv.length = ivBytes) (hivb : isBytes iv = true)
    (hcb : isBytes c = true) (hcne : c ≠ [])
    (hchain : Crypto.decryptDataChain P parseData sAlgo iv (deriveKey p2) c =
      .ok (.dataStr s)) :
    Crypto.decryptData P parseData
      (js (toString version) ++ [36] ++ BufferTools.toHex iv ++ BufferTools.toHex c) p2 =
      .ok (some s) := by
  have hshape : js (toString version) ++ [36] ++ BufferTools.toHex iv ++ BufferTools.toHex c =
      digit :: 36 :: (BufferTools.toHex iv ++ BufferTools.toHex c) := by
    rw [hdigit]
    simp [List.append_assoc]
  rw [hshape]
  have hrestne : BufferTools.toHex iv ++ BufferTools.toHex c ≠ [] :=
    append_toHex_ne_nil iv c hcne
  have hrestlt : (BufferTools.toHex iv ++ BufferTools.toHex c).all
      (fun u => ¬ (u ∈ lineTerminators)) = true := by
    rw [List.all_append, Bool.and_eq_true]
    exact ⟨toHex_no_lineTerminators iv hivb, toHex_no_lineTerminators c hcb⟩
  have hres : VersionResolves (digit :: 36 :: (BufferTools.toHex iv ++ BufferTools.toHex c))
      version (BufferTools.toHex iv ++ BufferTools.toHex c) := by
    right
    rw [parseVersionTag_single digit _ hdig hrestne hrestlt, hdv]
  rw [decryptData_eq_core P parseData _ p2 version _ (by simp) hp2 hav hres]
  simp only [Crypto.decryptDataCore, hv]
  obtain ⟨ht, hd2⟩ := take_drop_toHex iv c ivBytes hivlen
  simp only [ht, hd2, fromHex_toHex iv hivb, fromHex_toHex c hcb, hchain]

/-- C10: the symmetric key of encryptData and decryptData is the
32-byte cyclic repetition of the password's code units; two passwords
with the same repetition derive the same key, and data encrypted under
one decrypts under the other. -/
theorem deriveKey_cyclic_cross_decrypt (P : Provider)
    (parseData : Bytes → Except JsError DVal)
    (p1 p2 dataString : JSStr) (version : Nat) (sAlgo : SAlgoName) (ivBytes : Nat)
    (ivRand : Nat → Nat) (r0 r1 r2 : Nat) (noise : Nat → Nat)
    (hp1 : p1 ≠ []) (hp2 : p2 ≠ []) (hav : P.available = true)
    (hkeys : deriveKey p1 = deriveKey p2)
    (hplain : plainStr dataString = true)
    (hv : versionAlgo version = some (sAlgo, ivBytes))
    (himp : ImportKeyRaw P) (hsym : SymCipherGood P sAlgo)
    (hparse : parseData (jsonStringifyData dataString) = .ok (.dataStr dataString)) :
    (Crypto.encryptData P dataString p1 version ivRand r0 r1 r2 noise).bind
      (fun out => Crypto.decryptData P parseData out p2) = .ok (some dataString) := by
  have hkb : isBytes (deriveKey p1) = true := isBytes_deriveKey p1
  have hdB : isBytes (BufferTools.fromObject (jsonStringifyData dataString)
      true r0 r1 r2 noise) = true := isBytes_fromObject _ _ _ _ _ _
  obtain ⟨c, henc, hcb, hcne, hdec⟩ := hsym ((List.range ivBytes).map (fun i => ivRand i % 256))
    (deriveKey p1) _ hdB
  have hEnc : Crypto.encryptData P dataString p1 version ivRand r0 r1 r2 noise =
      .ok (js (toString version) ++ [36] ++
        BufferTools.toHex ((List.range ivBytes).map (fun i => ivRand i % 256)) ++
        BufferTools.toHex c) := by
    simp only [Crypto.encryptData, hp1, hav, hv, himp (deriveKey p1) hkb, henc]
    simp
  rw [hEnc]
  show Crypto.decryptData P parseData
    (js (toString version) ++ [36] ++
      BufferTools.toHex ((List.range ivBytes).map (fun i => ivRand i % 256)) ++
      BufferTools.toHex c) p2 = .ok (some dataString)
  have hchain : Crypto.decryptDataChain P parseData sAlgo
      ((List.range ivBytes).map (fun i => ivRand i % 256)) (deriveKey p2) c =
      .ok (.dataStr dataString) := by
    unfold Crypto.decryptDataChain
    rw [← hkeys, himp (deriveKey p1) hkb]
    simp only [hdec]
    exact toObject_fromObject parseData (jsonStringifyData dataString)
      (DVal.dataStr dataString) true r0 r1 r2 noise
      (goodBody_stringifyData dataString hplain) hparse
  have hv12 : version = 1 ∨ version = 2 := by
    rcases version with _ | _ | _ | n
    · simp [versionAlgo] at hv
    · left; rfl
    · right; rfl
    · simp [versionAlgo] at hv
  rcases hv12 with rfl | rfl
  · exact decryptData_on_tagged_hex P parseData p2 dataString 1 49 sAlgo ivBytes _ c
      (by decide) (by decide) rfl hv hp2 hav (by simp) (isBytes_randBytes ivBytes ivRand)
      hcb hcne hchain
  · exact decryptData_on_tagged_hex P parseData p2 dataString 2 50 sAlgo ivBytes _ c
      (by decide) (by decide) rfl hv hp2 hav (by simp) (isBytes_randBytes ivBytes ivRand)
      hcb hcne hchain

theorem deriveKey_cyclic_cross_decrypt_witness :
    deriveKey (js "ab") = deriveKey (js "abab") ∧
    (Crypto.encryptData hexProvider (js "hi") (js "ab") 2 (fun _ => 0) 0 0 0
      (fun _ => 65)).bind
      (fun out => Crypto.decryptData hexProvider
        (fun b => if b = jsonStringifyData (js "hi") then Except.ok (DVal.dataStr (js "hi"))
          else Except.ok DVal.other) out (js "abab")) = .ok (some (js "hi")) :=
  ⟨by decide,
    deriveKey_cyclic_cross_decrypt hexProvider
      (fun b => if b = jsonStringifyData (js "hi") then Except.ok (DVal.dataStr (js "hi"))
        else Except.ok DVal.other)
      (js "ab") (js "abab") (js "hi") 2 SAlgoName.aesGcm 12 (fun _ => 0) 0 0 0 (fun _ => 65)
      (by decide) (by decide) rfl (by decide) (by decide) rfl
      hexProvider_importKey (hexProvider_sym SAlgoName.aesGcm) (by rfl)⟩

theorem isBytes_append (a b : Bytes) (ha : isBytes a = true) (hb : isBytes b = true) :
    isBytes (a ++ b) = true := by
  simp only [isBytes, List.all_append, Bool.and_eq_true]
  exact ⟨ha, hb⟩

/-- Decryption of a well-formed envelope: given the pieces the provider
contracts guarantee, decryptObject recovers the parsed object. -/
theorem decryptObject_ok {Obj : Type} (P : Provider) (parse : Bytes → Except JsError Obj)
    (st : CryptoState) (o : Obj) (version digit : Nat) (sAlgo : SAlgoName) (ivBytes : Nat)
    (priv : Nat) (iv freshKey cipher blob plainBuffer : Bytes)
    (hdigit : js (toString version) = [digit]) (hdig : isDigitUnit digit = true)
    (hdv : digit - 48 = version)
    (hv : versionAlgo version = some (sAlgo, ivBytes))
    (hav : P.available = true) (hkp : st.hasKeyPair = true)
    (hpriv : st.privateKey = some priv)
    (hab : AtobBtoa P) (hts : BtoaTagSafe P)
    (hblobB : isBytes blob = true) (hcb : isBytes cipher = true) (hcne : cipher ≠ [])
    (hrsaD : P.rsaDecrypt priv blob = .ok (iv ++ freshKey))
    (hivlen : iv.length = ivBytes) (_hfkb : isBytes freshKey = true)
    (himpk : P.aesImportKey freshKey = .ok freshKey)
    (hdecC : P.aesDecrypt sAlgo iv freshKey cipher = .ok plainBuffer)
    (htoObj : BufferTools.toObject parse plainBuffer = .ok o) :
    Crypto.decryptObject P parse st (P.btoa (BufferTools.toAscii blob))
      (js (toString version) ++ [36] ++ P.btoa (BufferTools.toAscii cipher)) =
      .ok (.obj o) := by
  have hshape : js (toString version) ++ [36] ++ P.btoa (BufferTools.toAscii cipher) =
      digit :: 36 :: P.btoa (BufferTools.toAscii cipher) := by
    rw [hdigit]
    simp
  rw [hshape]
  have hmsgNe : P.btoa (BufferTools.toAscii cipher) ≠ [] :=
    (hts (BufferTools.toAscii cipher)).2 hcne
  have hmsgLT : (P.btoa (BufferTools.toAscii cipher)).all
      (fun u => ¬ (u ∈ lineTerminators)) = true := by
    rw [List.all_eq_true]
    intro x hx
    simpa using ((hts (BufferTools.toAscii cipher)).1 x hx).2
  have htag : parseVersionTag (digit :: 36 :: P.btoa (BufferTools.toAscii cipher)) =
      some (version, P.btoa (BufferTools.toAscii cipher)) := by
    rw [parseVersionTag_single digit _ hdig hmsgNe hmsgLT, hdv]
  have htag2 : parseVersionTag (digit :: 36 :: P.btoa cipher) =
      some (version, P.btoa cipher) := htag
  have hatobB : P.atob (P.btoa blob) = Except.ok blob := by
    have h := hab blob hblobB
    simpa only [BufferTools.toAscii] using h
  have hatobC : P.atob (P.btoa cipher) = Except.ok cipher := by
    have h := hab cipher hcb
    simpa only [BufferTools.toAscii] using h
  have hpre : Crypto.decryptObjectPre P st (P.btoa (BufferTools.toAscii blob))
      (digit :: 36 :: P.btoa (BufferTools.toAscii cipher)) =
      .ok (blob, sAlgo, ivBytes, cipher) := by
    unfold Crypto.decryptObjectPre
    rw [if_neg (by simp [hav]), if_neg (by simp [hkp])]
    simp only [BufferTools.toAscii]
    simp only [hatobB, htag2, hatobC, hv,
      fromAscii_of_isBytes blob hblobB, fromAscii_of_isBytes cipher hcb]
  have htake : (iv ++ freshKey).take ivBytes = iv := by
    rw [← hivlen]
    exact List.take_left iv freshKey
  have hdrop : (iv ++ freshKey).drop ivBytes = freshKey := by
    rw [← hivlen]
    exact List.drop_left iv freshKey
  have hinner : Crypto.decryptObjectInner P parse st.privateKey sAlgo ivBytes blob cipher =
      .ok o := by
    unfold Crypto.decryptObjectInner
    rw [hpriv]
    simp only [hrsaD, BufferTools.splitInTwo, htake, hdrop, himpk, hdecC, htoObj]
  unfold Crypto.decryptObject
  rw [hpre]
  simp only [hinner]

/-- C1 counterexample: the roundtrip does not hold for every
JSON-serializable object.  The empty object, whose serialization is
"\x7b\x7d", fails it for version 1 and version 2 alike: the brace
regex of BufferTools.toObject requires at least one character between
the braces, so the decryption chain fails with the toObject format
error, which the catch handler re-throws (its name is not
OperationError), and decryptObject rejects instead of resolving with
the object. -/
theorem encryptObject_decryptObject_empty_object_rejects :
    (Crypto.encryptObject hexProvider (fun _ : Unit => js "\x7b\x7d")
        ⟨some 1, some 2, some (js "p"), none⟩ () 1 (fun _ => 0) [7] 0 0 0
        (fun _ => 65)).bind
      (fun env => Crypto.decryptObject hexProvider
        (fun b => if b = js "\x7b\x7d" then Except.ok () else
          Except.error (JsError.mk "SyntaxError" "parse"))
        ⟨some 1, some 2, some (js "p"), none⟩ env.key env.message) =
      .error ⟨"Error", "BufferTools.toObject(): Invalid arguments"⟩ ∧
    (Crypto.encryptObject hexProvider (fun _ : Unit => js "\x7b\x7d")
        ⟨some 1, some 2, some (js "p"), none⟩ () 2 (fun _ => 0) [7] 0 0 0
        (fun _ => 65)).bind
      (fun env => Crypto.decryptObject hexProvider
        (fun b => if b = js "\x7b\x7d" then Except.ok () else
          Except.error (JsError.mk "SyntaxError" "parse"))
        ⟨some 1, some 2, some (js "p"), none⟩ env.key env.message) =
      .error ⟨"Error", "BufferTools.toObject(): Invalid arguments"⟩ :=
  ⟨rfl, rfl⟩

/-- C1 (amended): for every object whose serialization is a usable
JSON body — brace-delimited with a nonempty interior, which excludes
the empty object — and a session holding a valid key-pair,
decryptObject applied to the message and key produced by encryptObject
recovers the object, for version 1 (AES-CBC) and version 2 (AES-GCM)
alike, under the documented contracts of the external cipher, codec
and key-import collaborators. -/
theorem encryptObject_decryptObject_roundtrip {Obj : Type} (P : Provider)
    (stringify : Obj → JSStr) (parse : Bytes → Except JsError Obj)
    (st : CryptoState) (o : Obj) (version : Nat) (sAlgo : SAlgoName) (ivBytes : Nat)
    (pub priv : Nat)
    (ivRand : Nat → Nat) (freshKey : Bytes) (r0 r1 r2 : Nat) (noise : Nat → Nat)
    (hav : P.available = true)
    (hpub : st.publicKey = some pub) (hpriv : st.privateKey = some priv)
    (hkp : st.hasKeyPair = true)
    (hv : versionAlgo version = some (sAlgo, ivBytes))
    (hfkb : isBytes freshKey = true)
    (hgood : GoodBody (stringify o)) (hparse : parse (stringify o) = .ok o)
    (hab : AtobBtoa P) (hts : BtoaTagSafe P)
    (himp : ImportKeyRaw P) (hsym : SymCipherGood P sAlgo)
    (hrsa : RsaPairGood P pub priv) :
    (Crypto.encryptObject P stringify st o version ivRand freshKey r0 r1 r2 noise).bind
      (fun env => Crypto.decryptObject P parse st env.key env.message) = .ok (.obj o) := by
  have hivb : isBytes ((List.range ivBytes).map (fun i => ivRand i % 256)) = true :=
    isBytes_randBytes ivBytes ivRand
  have hplainB : isBytes (BufferTools.fromObject (stringify o) true r0 r1 r2 noise) = true :=
    isBytes_fromObject _ _ _ _ _ _
  obtain ⟨cipher, hencC, hcb, hcne, hdecC⟩ :=
    hsym ((List.range ivBytes).map (fun i => ivRand i % 256)) freshKey _ hplainB
  have hconcat : BufferTools.concat
      [(List.range ivBytes).map (fun i => ivRand i % 256), freshKey] =
      ((List.range ivBytes).map (fun i => ivRand i % 256)) ++ freshKey := by
    simp [BufferTools.concat]
  obtain ⟨blob, hrsaE, hblobB, hrsaD⟩ :=
    hrsa (((List.range ivBytes).map (fun i => ivRand i % 256)) ++ freshKey)
      (isBytes_append _ _ hivb hfkb)
  have hEnc : Crypto.encryptObject P stringify st o version ivRand freshKey r0 r1 r2 noise =
      .ok ⟨js (toString version) ++ [36] ++ P.btoa (BufferTools.toAscii cipher),
        P.btoa (BufferTools.toAscii blob)⟩ := by
    simp only [Crypto.encryptObject, hav, hv, hencC, hpub, hconcat, hrsaE]
    simp
  rw [hEnc]
  show Crypto.decryptObject P parse st (P.btoa (BufferTools.toAscii blob))
    (js (toString version) ++ [36] ++ P.btoa (BufferTools.toAscii cipher)) = .ok (.obj o)
  have htoObj : BufferTools.toObject parse
      (BufferTools.fromObject (stringify o) true r0 r1 r2 noise) = .ok o :=
    toObject_fromObject parse (stringify o) o true r0 r1 r2 noise hgood hparse
  have hv12 : version = 1 ∨ version = 2 := by
    rcases version with _ | _ | _ | n
    · simp [versionAlgo] at hv
    · left; rfl
    · right; rfl
    · simp [versionAlgo] at hv
  rcases hv12 with rfl | rfl
  · exact decryptObject_ok P parse st o 1 49 sAlgo ivBytes priv _ freshKey cipher blob _
      (by decide) (by decide) rfl hv hav hkp hpriv hab hts hblobB hcb hcne hrsaD
      (by simp) hfkb (himp freshKey hfkb) hdecC htoObj
  · exact decryptObject_ok P parse st o 2 50 sAlgo ivBytes priv _ freshKey cipher blob _
      (by decide) (by decide) rfl hv hav hkp hpriv hab hts hblobB hcb hcne hrsaD
      (by simp) hfkb (himp freshKey hfkb) hdecC htoObj

theorem encryptObject_decryptObject_roundtrip_witness :
    (Crypto.encryptObject hexProvider (fun _ : Unit => js "\x7b0\x7d")
        ⟨some 1, some 2, some (js "p"), none⟩ () 2 (fun _ => 0) [7] 0 0 0
        (fun _ => 65)).bind
      (fun env => Crypto.decryptObject hexProvider
        (fun b => if b = js "\x7b0\x7d" then Except.ok () else
          Except.error (JsError.mk "SyntaxError" "parse"))
        ⟨some 1, some 2, some (js "p"), none⟩ env.key env.message) =
      .ok (.obj ()) :=
  encryptObject_decryptObject_roundtrip hexProvider (fun _ : Unit => js "\x7b0\x7d")
    (fun b => if b = js "\x7b0\x7d" then Except.ok () else
      Except.error (JsError.mk "SyntaxError" "parse"))
    ⟨some 1, some 2, some (js "p"), none⟩ () 2 .aesGcm 12 1 2 (fun _ => 0) [7] 0 0 0
    (fun _ => 65) rfl rfl rfl rfl rfl (by decide)
    ⟨by decide, by decide, by decide, by decide, by decide⟩ (by rfl)
    hexProvider_atobBtoa hexProvider_tagSafe hexProvider_importKey
    (hexProvider_sym .aesGcm) (hexProvider_rsa 1 2)

/-- C2: decryptObject resolves with the false sentinel exactly when
the catch-protected chain fails with an error named OperationError:
such a failure yields false (first conjunct); a chain failure under
any other error name is re-thrown as a rejection (second conjunct); a
successful chain yields the object, never false (third conjunct); and
any failure of the steps before the chain — unavailable service,
missing key-pair, undecodable strings, unknown version — is surfaced
as a rejection (fourth conjunct).  Together the four cases cover every
way decryptObject can finish. -/
theorem decryptObject_false_iff_operationError {Obj : Type} (P : Provider)
    (parse : Bytes → Except JsError Obj)
    (st1 : CryptoState) (ks1 ms1 : JSStr) (kb1 : Bytes) (a1 : SAlgoName) (ivB1 : Nat)
    (cb1 : Bytes) (e1 : JsError)
    (st2 : CryptoState) (ks2 ms2 : JSStr) (kb2 : Bytes) (a2 : SAlgoName) (ivB2 : Nat)
    (cb2 : Bytes) (e2 : JsError)
    (st3 : CryptoState) (ks3 ms3 : JSStr) (kb3 : Bytes) (a3 : SAlgoName) (ivB3 : Nat)
    (cb3 : Bytes) (o3 : Obj)
    (st4 : CryptoState) (ks4 ms4 : JSStr) (e4 : JsError)
    (hpre1 : Crypto.decryptObjectPre P st1 ks1 ms1 = .ok (kb1, a1, ivB1, cb1))
    (hin1 : Crypto.decryptObjectInner P parse st1.privateKey a1 ivB1 kb1 cb1 = .error e1)
    (hn1 : e1.name = "OperationError")
    (hpre2 : Crypto.decryptObjectPre P st2 ks2 ms2 = .ok (kb2, a2, ivB2, cb2))
    (hin2 : Crypto.decryptObjectInner P parse st2.privateKey a2 ivB2 kb2 cb2 = .error e2)
    (hn2 : e2.name ≠ "OperationError")
    (hpre3 : Crypto.decryptObjectPre P st3 ks3 ms3 = .ok (kb3, a3, ivB3, cb3))
    (hin3 : Crypto.decryptObjectInner P parse st3.privateKey a3 ivB3 kb3 cb3 = .ok o3)
    (hpre4 : Crypto.decryptObjectPre P st4 ks4 ms4 = .error e4) :
    Crypto.decryptObject P parse st1 ks1 ms1 = .ok .falseOut ∧
    Crypto.decryptObject P parse st2 ks2 ms2 = .error e2 ∧
    Crypto.decryptObject P parse st3 ks3 ms3 = .ok (.obj o3) ∧
    Crypto.decryptObject P parse st4 ks4 ms4 = .error e4 := by
  refine ⟨?_, ?_, ?_, ?_⟩
  · simp only [Crypto.decryptObject, hpre1, hin1]
    simp [hn1]
  · simp only [Crypto.decryptObject, hpre2, hin2]
    simp [hn2]
  · simp only [Crypto.decryptObject, hpre3, hin3]
  · simp only [Crypto.decryptObject, hpre4]

theorem decryptObject_false_iff_operationError_witness :
    Crypto.decryptObject mixedProvider
      (fun b => if b = js "\x7b0\x7d" then Except.ok () else
        Except.error (JsError.mk "SyntaxError" "parse"))
      ⟨some 1, some 9, some (js "p"), none⟩ (js "00") (js "2$00") = .ok .falseOut ∧
    Crypto.decryptObject mixedProvider
      (fun b => if b = js "\x7b0\x7d" then Except.ok () else
        Except.error (JsError.mk "SyntaxError" "parse"))
      ⟨some 1, some 1, some (js "p"), none⟩ (js "00") (js "2$00") =
      .error ⟨"Error", "BufferTools.toObject(): Invalid arguments"⟩ ∧
    Crypto.decryptObject mixedProvider
      (fun b => if b = js "\x7b0\x7d" then Except.ok () else
        Except.error (JsError.mk "SyntaxError" "parse"))
      ⟨some 1, some 1, some (js "p"), none⟩ (js "00") (js "2$7b307d00") =
      .ok (.obj ()) ∧
    Crypto.decryptObject mixedProvider
      (fun b => if b = js "\x7b0\x7d" then Except.ok () else
        Except.error (JsError.mk "SyntaxError" "parse"))
      ⟨none, none, none, none⟩ (js "00") (js "2$00") =
      .error ⟨"Error", "Crypto: The private key is missing, decryption is not available."⟩ :=
  decryptObject_false_iff_operationError mixedProvider
    (fun b => if b = js "\x7b0\x7d" then Except.ok () else
      Except.error (JsError.mk "SyntaxError" "parse"))
    ⟨some 1, some 9, some (js "p"), none⟩ (js "00") (js "2$00") [0] .aesGcm 12 [0]
      ⟨"OperationError", "decrypt"⟩
    ⟨some 1, some 1, some (js "p"), none⟩ (js "00") (js "2$00") [0] .aesGcm 12 [0]
      ⟨"Error", "BufferTools.toObject(): Invalid arguments"⟩
    ⟨some 1, some 1, some (js "p"), none⟩ (js "00") (js "2$7b307d00") [0] .aesGcm 12
      [123, 48, 125, 0] ()
    ⟨none, none, none, none⟩ (js "00") (js "2$00")
      ⟨"Error", "Crypto: The private key is missing, decryption is not available."⟩
    (by rfl) (by rfl) rfl
    (by rfl) (by rfl) (by decide)
    (by rfl) (by rfl)
    (by rfl)

end Claims

end WCC
